import Mathlib

/-!
Verification of the quant-lab per-candle backtest engine.

This file is a shallow embedding, in Lean 4, of the core components of the
backtester:

* `core/conditions.py` — `invert_condition`, `evaluate_condition`;
* `core/sizing.py` — `compute_position_and_stops`;
* `core/state.py` — `BacktestState`, `maybe_open_position` and the per-bar
  tracking helpers;
* `core/exits.py` — `_compute_pnl`, `build_trade`, `handle_exits_for_bar`,
  `close_at_end_of_data`;
* `core/regime_router.py` — `get_active_strategy` (modelled down to the
  resolved strategy name; `get_strategy` itself only loads a JSON file);
* `core/indicators.py` — the raw regime classification and the
  minimum-duration (hysteresis) labelling pass of
  `add_indicators_and_regime` (lines 96–126);
* the result aggregation of `run_backtest` (maximum drawdown).

Numeric conventions: Python `Decimal` and `float` values are both modelled
as `ℚ`; every comparison in the source is a plain numeric comparison, so
nothing is lost at the precision the verified properties live at.  String
parameters that hold numbers are modelled directly as numbers.  The one
string-valued numeric parameter in the source, `above = "mode_threshold"`
on an `adx` condition (which the source maps back to the caller-supplied
threshold), is outside this numeric model and is noted where relevant.

Pandas rows are modelled by the `Row` structure: the indicator columns that
`add_indicators_and_regime` always creates are plain fields, together with
presence flags mirroring the `"col" not in row` guards of the source;
`ema_{p}` columns (whose names depend on a condition parameter) are an
`Option`-valued function.  Rows of one dataframe share their columns, so
access to a previous row's `ema` column after the current row's membership
test succeeded is modelled with a default that is never reached in the
pipeline.
-/

namespace QuantLab

/-- Condition type tags.  `core/conditions.py` dispatches on the string in
`cond["type"]`; the nineteen handled tags become constructors and every
other string becomes `other tag`, reaching the fall-through `return False`
of the source. -/
inductive CondType where
  | macd_cross
  | ema_cross
  | stochastic_cross
  | adx
  | rsi
  | price_above_ema
  | price_below_ema
  | volume_zscore
  | price_above_bb
  | price_below_bb
  | price_near_bb_lower
  | price_near_bb_upper
  | price_crosses_mid_bb
  | price_crosses_mid_bb_down
  | breakout_high
  | breakout_low
  | volatility_expansion
  | range_contraction
  | trend_pullback
  | other (tag : String)
deriving DecidableEq

/-- A condition dictionary from the SDL.  Optional fields model the
optional keys of the Python dict (`None` = key absent).  `min_param`
models the `"min"` key read by the `volume_zscore` branch.
`hold_time_hours`-style derived data does not appear on conditions. -/
structure Condition where
  ctype : CondType
  above : Option ℚ := none
  below : Option ℚ := none
  direction : Option String := none
  fast : Option ℕ := none
  slow : Option ℕ := none
  period : Option ℕ := none
  buffer_pct : Option ℚ := none
  multiplier : Option ℚ := none
  max_pullback_pct : Option ℚ := none
  min_param : Option ℚ := none
deriving DecidableEq

/-- `core/conditions.py`, `invert_condition` (lines 15–96): returns a new
condition representing the logical mirror; types with no natural mirror
are returned unchanged.  `inv = cond.copy()` followed by key updates is
modelled by structure update. -/
def invert_condition (cond : Condition) : Condition :=
  match cond.ctype with
  | .rsi =>
      match cond.below, cond.above with
      | some b, _ => { cond with above := some (100 - b), below := none }
      | none, some a => { cond with below := some (100 - a), above := none }
      | none, none => cond
  | .macd_cross | .ema_cross | .stochastic_cross =>
      if cond.direction = some ("up") then { cond with direction := some ("down") }
      else if cond.direction = some ("down") then { cond with direction := some ("up") }
      else cond
  | .price_above_ema => { cond with ctype := .price_below_ema }
  | .price_below_ema => { cond with ctype := .price_above_ema }
  | .price_above_bb => { cond with ctype := .price_below_bb }
  | .price_below_bb => { cond with ctype := .price_above_bb }
  | .price_crosses_mid_bb => { cond with ctype := .price_crosses_mid_bb_down }
  | .price_crosses_mid_bb_down => { cond with ctype := .price_crosses_mid_bb }
  | .price_near_bb_lower => { cond with ctype := .price_near_bb_upper }
  | .price_near_bb_upper => { cond with ctype := .price_near_bb_lower }
  | .breakout_high => { cond with ctype := .breakout_low }
  | .breakout_low => { cond with ctype := .breakout_high }
  | .volatility_expansion => { cond with ctype := .range_contraction }
  | .range_contraction => { cond with ctype := .volatility_expansion }
  | .trend_pullback =>
      if cond.direction = some ("long") then { cond with direction := some ("short") }
      else if cond.direction = some ("short") then { cond with direction := some ("long") }
      else cond
  | _ => cond

/-- A candle row after `add_indicators_and_regime`: OHLCV plus the derived
indicator columns.  The `has_*` flags model the `"col" not in row`
membership guards of `evaluate_condition`; `ema p` models the dynamically
named `ema_{p}` columns (`none` = column absent). -/
structure Row where
  timestamp : String := ""
  close : ℚ := 0
  high : ℚ := 0
  low : ℚ := 0
  macd : ℚ := 0
  signal : ℚ := 0
  adx : ℚ := 0
  rsi : ℚ := 0
  stoch_k : ℚ := 0
  stoch_d : ℚ := 0
  bb_mid : ℚ := 0
  bb_upper : ℚ := 0
  bb_lower : ℚ := 0
  volume_zscore : ℚ := 0
  atr : ℚ := 0
  has_stoch_k : Bool := true
  has_stoch_d : Bool := true
  has_bb_mid : Bool := true
  has_bb_upper : Bool := true
  has_bb_lower : Bool := true
  has_volume_zscore : Bool := true
  has_atr : Bool := true
  ema : ℕ → Option ℚ := fun _ => none

/-- `core/conditions.py`, `evaluate_condition` (lines 99–313): evaluate a
single condition against the current and previous bar.  Unknown types fall
through to `false`.  The `adx` branch's string sentinel
`above = "mode_threshold"` (mapped back to `adx_threshold` by the source)
is outside this numeric model; a missing `above` already defaults to
`adx_threshold` exactly as in the source. -/
def evaluate_condition (cond : Condition) (row prev : Row) (adx_threshold : ℚ) : Bool :=
  match cond.ctype with
  | .macd_cross =>
      if cond.direction.getD ("up") = "up" then
        decide (prev.macd ≤ prev.signal ∧ row.macd > row.signal)
      else decide (prev.macd ≥ prev.signal ∧ row.macd < row.signal)
  | .ema_cross =>
      let fast_p := cond.fast.getD 50
      let slow_p := cond.slow.getD 150
      match row.ema fast_p, row.ema slow_p with
      | some rf, some rs =>
          let pf := (prev.ema fast_p).getD 0
          let ps := (prev.ema slow_p).getD 0
          if cond.direction.getD ("up") = "up" then decide (pf ≤ ps ∧ rf > rs)
          else decide (pf ≥ ps ∧ rf < rs)
      | _, _ => false
  | .stochastic_cross =>
      if row.has_stoch_k && row.has_stoch_d then
        if cond.direction.getD ("up") = "up" then
          decide (prev.stoch_k ≤ prev.stoch_d ∧ row.stoch_k > row.stoch_d)
        else decide (prev.stoch_k ≥ prev.stoch_d ∧ row.stoch_k < row.stoch_d)
      else false
  | .adx =>
      let thresh := cond.above.getD adx_threshold
      match cond.below with
      | some b => decide (row.adx < b)
      | none => decide (row.adx > thresh)
  | .price_above_ema =>
      match row.ema (cond.period.getD 150) with
      | some e => decide (row.close > e)
      | none => false
  | .price_below_ema =>
      match row.ema (cond.period.getD 150) with
      | some e => decide (row.close < e)
      | none => false
  | .rsi =>
      match cond.below with
      | some b => decide (row.rsi < b)
      | none =>
          match cond.above with
          | some a => decide (row.rsi > a)
          | none => false
  | .volume_zscore =>
      if row.has_volume_zscore then
        match cond.below with
        | some b => decide (row.volume_zscore < b)
        | none => decide (row.volume_zscore > cond.above.getD (cond.min_param.getD 2))
      else false
  | .price_above_bb =>
      if row.has_bb_upper then decide (row.close > row.bb_upper) else false
  | .price_below_bb =>
      if row.has_bb_lower then decide (row.close < row.bb_lower) else false
  | .price_near_bb_lower =>
      if row.has_bb_lower && row.has_bb_mid then
        decide (row.close ≤ row.bb_lower + (row.bb_mid - row.bb_lower) * (1 / 10))
      else false
  | .price_near_bb_upper =>
      if row.has_bb_upper && row.has_bb_mid then
        decide (row.close ≥ row.bb_upper - (row.bb_upper - row.bb_mid) * (1 / 10))
      else false
  | .price_crosses_mid_bb =>
      if row.has_bb_mid then
        decide (prev.close < prev.bb_mid ∧ row.close ≥ row.bb_mid)
      else false
  | .price_crosses_mid_bb_down =>
      if row.has_bb_mid then
        decide (prev.close > prev.bb_mid ∧ row.close ≤ row.bb_mid)
      else false
  | .breakout_high =>
      if row.has_bb_upper then
        decide (row.close > row.bb_upper * (1 + cond.buffer_pct.getD 0))
      else false
  | .breakout_low =>
      if row.has_bb_lower then
        decide (row.close < row.bb_lower * (1 - cond.buffer_pct.getD 0))
      else false
  | .volatility_expansion =>
      if row.has_atr && prev.has_atr && decide (prev.atr ≠ 0) then
        decide ((if prev.atr ≠ 0 then row.atr / prev.atr else 0) > cond.multiplier.getD (3 / 2))
      else false
  | .range_contraction =>
      if row.has_atr && prev.has_atr && decide (prev.atr ≠ 0) then
        decide ((if prev.atr ≠ 0 then row.atr / prev.atr else 0) < cond.multiplier.getD (3 / 4))
      else false
  | .trend_pullback =>
      match row.ema (cond.period.getD 50) with
      | none => false
      | some e =>
          let m := cond.max_pullback_pct.getD (1 / 50)
          if cond.direction = some ("long") then
            decide (e * (1 - m) ≤ row.close ∧ row.close ≤ e)
          else if cond.direction = some ("short") then
            decide (e ≤ row.close ∧ row.close ≤ e * (1 + m))
          else decide (e * (1 - m) ≤ row.close ∧ row.close ≤ e * (1 + m))
  | .other _ => false

/-- A strategy configuration as consumed by the state machine: the fields
read by `maybe_open_position` and `handle_exits_for_bar`
(`current_strategy["name"]`, `["direction"]`, `["entry"]["conditions"]`);
the scalar exit/risk parameters are passed to those functions as separate
arguments, mirroring the source signatures. -/
structure Strategy where
  name : String
  direction : String
  entry_conditions : List Condition
deriving DecidableEq

/-- `core/sizing.py`, `compute_position_and_stops` (lines 38–73): returns
`(position_size, stop_loss_pct, take_profit_pct)`.  The
`take_profit_pct_cfg` argument is kept (it is in the source signature)
although, as in the source, it is never read. -/
def compute_position_and_stops (capital price position_frac risk_per_trade_frac fixed_rr : ℚ)
    (sizing : String) (stop_loss_pct_cfg take_profit_pct_cfg max_exposure_usd fee_pct : ℚ) :
    ℚ × ℚ × ℚ :=
  if sizing = "equity_pct" then
    let notional := capital * position_frac
    let position_size := if notional ≤ 0 ∨ price ≤ 0 then 0 else notional / price
    let stop_loss_pct :=
      if notional > 0 then
        let raw_stop := risk_per_trade_frac / position_frac - fee_pct
        if raw_stop ≤ 0 then stop_loss_pct_cfg else raw_stop
      else stop_loss_pct_cfg
    (position_size, stop_loss_pct, fixed_rr * stop_loss_pct)
  else
    let notional := max_exposure_usd
    let position_size := if price > 0 then notional / price else 0
    (position_size, stop_loss_pct_cfg, fixed_rr * stop_loss_pct_cfg)

/-- `core/results.py`, `TradeLog`, as populated by `build_trade` in
`core/exits.py`.  `hold_time_hours` (derived by parsing the two timestamp
strings as datetimes) is omitted from the model; no claim refers to it. -/
structure TradeLog where
  entry_ts : String
  exit_ts : String
  entry_price : ℚ
  exit_price : ℚ
  position : ℚ
  pnl : ℚ
  pnl_pct : ℚ
  regime : String
  strategy : String
  exit_reason : String
  mae : ℚ
  mfe : ℚ
  pnl_R : ℚ
  reward_multiple : ℚ
  stop_distance_pct : ℚ
  take_profit_multiple : ℚ
  trade_type : String
deriving DecidableEq

/-- `core/exits.py`, `build_trade` (lines 15–73). -/
def build_trade (entry_ts exit_ts : String) (entry_price exit_price close_amount pnl : ℚ)
    (entry_regime strategy_name exit_reason : String) (is_long : Bool)
    (initial_exposure high_water low_water entry_stop_price fixed_rr
     stop_distance_pct take_profit_multiple : ℚ) : TradeLog :=
  let mae :=
    if is_long then
      (if entry_price ≠ 0 then (low_water - entry_price) / entry_price * 100 else 0)
    else
      (if entry_price ≠ 0 then (entry_price - high_water) / entry_price * 100 else 0)
  let mfe :=
    if is_long then
      (if entry_price ≠ 0 then (high_water - entry_price) / entry_price * 100 else 0)
    else
      (if entry_price ≠ 0 then (entry_price - low_water) / entry_price * 100 else 0)
  let pnl_pct := if initial_exposure ≠ 0 then pnl / initial_exposure * 100 else 0
  let stop_dist_abs := |entry_price - entry_stop_price|
  let risk_amount := if stop_dist_abs > 0 then stop_dist_abs * close_amount else 0
  let pnl_R := if risk_amount ≠ 0 then pnl / risk_amount else 0
  { entry_ts := entry_ts
    exit_ts := exit_ts
    entry_price := entry_price
    exit_price := exit_price
    position := if is_long then close_amount else -close_amount
    pnl := pnl
    pnl_pct := pnl_pct
    regime := entry_regime
    strategy := strategy_name
    exit_reason := exit_reason
    mae := mae
    mfe := mfe
    pnl_R := pnl_R
    reward_multiple := fixed_rr
    stop_distance_pct := stop_distance_pct
    take_profit_multiple := take_profit_multiple
    trade_type := if is_long then "long" else "short" }

/-- `core/exits.py`, `_compute_pnl` (lines 76–86): directional gross PnL
minus the closing fee `fee_pct * (close_amount * price)`. -/
def compute_pnl (is_long : Bool) (entry_price price close_amount fee_pct : ℚ) : ℚ :=
  let fee := fee_pct * (close_amount * price)
  if is_long then (price - entry_price) * close_amount - fee
  else (entry_price - price) * close_amount - fee

/-- `core/state.py`, `BacktestState` (lines 17–38).  `regime_pnl` and
`regime_counts` are dictionaries in the source, modelled as functions. -/
structure BacktestState where
  capital : ℚ
  position : ℚ := 0
  entry_price : ℚ := 0
  entry_ts : String := ""
  entry_regime : String := ""
  initial_exposure : ℚ := 0
  stop_price : ℚ := 0
  high_water : ℚ := 0
  low_water : ℚ := 0
  trailing_active : Bool := false
  entry_stop_price : ℚ := 0
  entry_stop_distance_pct : ℚ := 0
  entry_rr_multiple : ℚ := 0
  entry_take_profit_pct : ℚ := 0
  equity : List ℚ := []
  trades : List TradeLog := []
  regime_pnl : String → ℚ := fun _ => 0
  regime_changes : ℕ := 0
  regime_counts : String → ℕ := fun _ => 0
  prev_regime : Option String := none

/-- `core/state.py`, `init_backtest_state` (lines 41–62). -/
def init_backtest_state (starting_capital : ℚ)
    (regime_up_label regime_down_label regime_range_label : String) : BacktestState :=
  { capital := starting_capital
    equity := [starting_capital]
    regime_pnl := fun _ => 0
    regime_counts := fun _ => 0
    regime_changes := 0
    prev_regime := none }

/-- `core/state.py`, `update_regime_for_bar` (lines 65–71). -/
def update_regime_for_bar (state : BacktestState) (current_regime : String) : BacktestState :=
  let state' :=
    if some current_regime ≠ state.prev_regime then
      { state with
        regime_changes :=
          if state.prev_regime ≠ none then state.regime_changes + 1 else state.regime_changes
        prev_regime := some current_regime }
    else state
  { state' with
    regime_counts := fun r =>
      if r = current_regime then state'.regime_counts r + 1 else state'.regime_counts r }

/-- `core/state.py`, `update_position_tracking_for_bar` (lines 74–88). -/
def update_position_tracking_for_bar (state : BacktestState) (high low : ℚ) : BacktestState :=
  if state.position = 0 then state
  else if 0 < state.position then
    { state with
      high_water := max state.high_water high
      low_water := min state.low_water low }
  else
    { state with
      high_water := min state.high_water high
      low_water := max state.low_water low }

/-- The entry decision of `maybe_open_position` (`core/state.py` lines
116–139): all entry conditions raw (long), all inverted (short), either
(both — always treated as long, the documented simplification). -/
def entry_met_calc (current_strategy : Strategy) (row prev : Row)
    (adx_threshold : ℚ) : Bool :=
  let entry_conditions := current_strategy.entry_conditions
  let direction := current_strategy.direction
  let long_entry :=
    entry_conditions.all fun c => evaluate_condition c row prev adx_threshold
  let short_entry :=
    if direction = "short" ∨ direction = "both" then
      entry_conditions.all fun c =>
        evaluate_condition (invert_condition c) row prev adx_threshold
    else false
  if direction = "long" then long_entry
  else if direction = "short" then short_entry
  else long_entry || short_entry

/-- The direction of an opened position (`core/state.py` lines 130–139):
long unless the strategy direction is exactly `"short"` — in particular
`"both"` opens long. -/
def entry_is_long (current_strategy : Strategy) : Bool :=
  if current_strategy.direction = "long" then true
  else if current_strategy.direction = "short" then false
  else true

/-- The state mutation of a taken entry (`core/state.py` lines 144–191):
size the position, set the stop from the derived stop percentage, seed
the watermarks at the entry price, remember the per-trade take-profit
percentage, and append the unchanged capital to the equity trajectory.
The `position_size.is_finite()` part of the final guard (a `Decimal` can
be infinite) is vacuous over `ℚ`. -/
def open_position_result (state : BacktestState) (row : Row) (current_regime : String)
    (is_long : Bool) (sizing : String)
    (position_frac risk_per_trade_frac fixed_rr stop_loss_pct_cfg take_profit_pct_cfg
     max_exposure_usd trailing_stop_pct fee_pct : ℚ) : BacktestState :=
  let price := row.close
  let res := compute_position_and_stops state.capital price position_frac
    risk_per_trade_frac fixed_rr sizing stop_loss_pct_cfg take_profit_pct_cfg
    max_exposure_usd fee_pct
  let stop_loss_pct := res.2.1
  let take_profit_pct := res.2.2
  let position_size := if res.1 ≤ 0 then (1 / 1000 : ℚ) else res.1
  let position := if is_long then position_size else -position_size
  let stop_price :=
    if is_long then price * (1 - stop_loss_pct) else price * (1 + stop_loss_pct)
  { state with
    position := position
    entry_price := price
    entry_ts := row.timestamp
    entry_regime := current_regime
    initial_exposure := |position| * price
    stop_price := stop_price
    high_water := price
    low_water := price
    trailing_active := decide (0 < trailing_stop_pct)
    entry_stop_price := stop_price
    entry_stop_distance_pct := if price ≠ 0 then |price - stop_price| / price * 100 else 0
    entry_rr_multiple :=
      if stop_loss_pct ≠ 0 then take_profit_pct / stop_loss_pct else fixed_rr
    entry_take_profit_pct := take_profit_pct
    equity := state.equity ++ [state.capital] }

/-- `core/state.py`, `maybe_open_position` (lines 91–191): entry logic.
Opens only when flat; charges no fee; appends the unchanged capital to the
equity trajectory. -/
def maybe_open_position (state : BacktestState) (row prev : Row) (current_strategy : Strategy)
    (current_regime : String) (adx_threshold : ℚ) (sizing : String)
    (position_frac risk_per_trade_frac fixed_rr stop_loss_pct_cfg take_profit_pct_cfg
     max_exposure_usd trailing_stop_pct fee_pct : ℚ) : BacktestState :=
  if state.position ≠ 0 then state
  else if ¬ entry_met_calc current_strategy row prev adx_threshold then state
  else open_position_result state row current_regime (entry_is_long current_strategy)
    sizing position_frac risk_per_trade_frac fixed_rr stop_loss_pct_cfg
    take_profit_pct_cfg max_exposure_usd trailing_stop_pct fee_pct

/-- The state update shared by every close in `core/exits.py`
(`handle_exits_for_bar` and `close_at_end_of_data`): add the PnL of the
closing leg to capital, append the `TradeLog`, and bucket the PnL under
the entry regime.  The caller updates `position` and appends the new
capital to `equity`, in the source's order. -/
def record_close (s : BacktestState) (row : Row) (strategy_name exit_reason : String)
    (close_amount : ℚ) (is_long : Bool) (fixed_rr fee_pct : ℚ) : BacktestState :=
  let price := row.close
  let pnl := compute_pnl is_long s.entry_price price close_amount fee_pct
  let trade := build_trade s.entry_ts row.timestamp s.entry_price price close_amount pnl
    s.entry_regime strategy_name exit_reason is_long s.initial_exposure s.high_water
    s.low_water s.entry_stop_price fixed_rr s.entry_stop_distance_pct s.entry_rr_multiple
  { s with
    capital := s.capital + pnl
    trades := s.trades ++ [trade]
    regime_pnl := fun r =>
      if r = s.entry_regime then s.regime_pnl r + pnl else s.regime_pnl r }

/-- Section "1) TAKE PROFIT" of `handle_exits_for_bar` (`core/exits.py`
lines 114–158): the take-profit level comes from `state.entry_price` and
`state.entry_take_profit_pct` — both fixed by `maybe_open_position` at
entry — and never from any strategy-configuration argument.  A triggered
take-profit closes the configured partial fraction (the whole position
when no fraction is set). -/
def tp_step (state : BacktestState) (row : Row) (strategy_name : String)
    (fixed_rr fee_pct partial_exit_pct : ℚ) : BacktestState :=
  let price := row.close
  let is_long : Bool := decide (0 < state.position)
  let tp_price :=
    if state.entry_take_profit_pct ≠ 0 then
      (if is_long then state.entry_price * (1 + state.entry_take_profit_pct)
       else state.entry_price * (1 - state.entry_take_profit_pct))
    else state.entry_price
  if state.entry_take_profit_pct ≠ 0 ∧
      ((is_long ∧ price ≥ tp_price) ∨ (¬ is_long ∧ price ≤ tp_price)) then
    let close_amount :=
      |state.position| * (if 0 < partial_exit_pct then partial_exit_pct else 1)
    let sc := record_close state row strategy_name ("take_profit")
      close_amount is_long fixed_rr fee_pct
    { sc with
      position := state.position - (if is_long then close_amount else -close_amount)
      equity := sc.equity ++ [sc.capital] }
  else state

/-- Sections "2) STOP LOSS", "3) TRAILING STOP ADJUSTMENT" and
"4) SIGNAL EXIT" of `handle_exits_for_bar` (`core/exits.py` lines
160–242), run on the position as it stands after the take-profit section.
A triggered stop loss closes everything and returns at once; otherwise the
ratchet may tighten (never loosen) the stop, and then the signal-exit
conditions are evaluated (raw for longs, raw-or-inverted for shorts). -/
def stop_trailing_signal_steps (s1 : BacktestState) (row prev : Row)
    (strategy_name : String) (signal_exit : List Condition)
    (trailing_stop_pct fixed_rr fee_pct adx_threshold : ℚ) : BacktestState :=
  let price := row.close
  let is_long : Bool := decide (0 < s1.position)
  if (is_long ∧ price ≤ s1.stop_price) ∨ (¬ is_long ∧ price ≥ s1.stop_price) then
    let sc := record_close s1 row strategy_name ("stop_loss")
      |s1.position| is_long fixed_rr fee_pct
    { sc with equity := sc.equity ++ [sc.capital], position := 0 }
  else
    let s2 :=
      if s1.trailing_active then
        (if is_long then
          { s1 with stop_price := max s1.stop_price (s1.high_water * (1 - trailing_stop_pct)) }
         else
          { s1 with stop_price := min s1.stop_price (s1.low_water * (1 + trailing_stop_pct)) })
      else s1
    let exit_met :=
      (signal_exit.any fun c => evaluate_condition c row prev adx_threshold)
      || (if ¬ is_long then
            (signal_exit.map invert_condition).any fun c =>
              evaluate_condition c row prev adx_threshold
          else false)
    if exit_met then
      let sc := record_close s2 row strategy_name ("signal_exit")
        |s2.position| is_long fixed_rr fee_pct
      { sc with equity := sc.equity ++ [sc.capital], position := 0 }
    else s2

/-- `core/exits.py`, `handle_exits_for_bar` (lines 89–242).  Per-bar exit
logic in the fixed order: take profit (against the take-profit percentage
fixed at entry), stop loss, trailing-stop ratchet, signal exit.  A partial
take-profit reduces the position and processing continues against the
reduced position (unless it closed everything, which returns); a stop
loss closes the remaining position and returns. -/
def handle_exits_for_bar (state : BacktestState) (row prev : Row)
    (current_strategy : Strategy) (signal_exit : List Condition)
    (trailing_stop_pct fixed_rr fee_pct : ℚ) (adx_threshold : ℚ)
    (partial_exit_pct : ℚ) : BacktestState :=
  if state.position = 0 then state
  else
    let s1 := tp_step state row current_strategy.name fixed_rr fee_pct partial_exit_pct
    if s1.position = 0 then s1
    else stop_trailing_signal_steps s1 row prev current_strategy.name signal_exit
      trailing_stop_pct fixed_rr fee_pct adx_threshold

/-- `core/exits.py`, `close_at_end_of_data` (lines 245–283). -/
def close_at_end_of_data (state : BacktestState) (last_row : Row)
    (current_strategy : Strategy) (fixed_rr fee_pct : ℚ) : BacktestState :=
  if state.position = 0 then state
  else
    let is_long : Bool := decide (0 < state.position)
    let sc := record_close state last_row current_strategy.name ("end_of_simulation")
      |state.position| is_long fixed_rr fee_pct
    { sc with equity := sc.equity ++ [sc.capital], position := 0 }

/-! ## Regime classification and the minimum-duration (hysteresis) pass

`core/indicators.py`, `add_indicators_and_regime`, lines 96–126.  The raw
per-candle classification (lines 96–98) reads five numbers off the row
(ADX, +DI, −DI, close, SMA-50); the hysteresis loop (lines 104–121) then
walks the raw labels once and, on a regime change at index `i`, commits
the just-ended segment via `df.loc[regime_start:i, current_regime] = True`
when `i - regime_start >= REGIME_MIN_DURATION`.  Pandas label slicing is
inclusive of BOTH endpoints, so a mid-run commit marks indices
`regime_start..i` — one candle past the segment's end — which the model
reproduces; the final commit `df.loc[regime_start:, ...]` marks
`regime_start..n-1`.  The final `regime` column (lines 124–126) defaults
to ranging, is overwritten where the `trending_up` flag is set, then where
the `trending_down` flag is set (so `trending_down` wins an overlap).
The model takes the dataframe index to coincide with positions (the state
after a full-file load; callers that `tail()` first shift labels away from
positions, which only makes the marking stranger). -/

/-- A regime label. -/
inductive Regime where
  | trending_up
  | trending_down
  | ranging
deriving DecidableEq

/-- The indicator fields that the raw regime classification of
`core/indicators.py` (lines 96–98) reads off a candle row. -/
structure RegimeRow where
  adx : ℚ
  plus_di : ℚ
  minus_di : ℚ
  close : ℚ
  sma_50 : ℚ
deriving DecidableEq

/-- `ADX_TRENDING` of `core/indicators.py`. -/
def ADX_TRENDING : ℚ := 25

/-- `REGIME_MIN_DURATION` of `core/indicators.py`. -/
def REGIME_MIN_DURATION : ℕ := 5

/-- Lines 96–98 of `core/indicators.py` combined with the per-candle
branch of the loop (lines 107–112): `raw_trending_up` first, else
`raw_trending_down`, else ranging.  (The two raw flags are mutually
exclusive, so the if-chain is exact.) -/
def raw_regime (r : RegimeRow) : Regime :=
  if r.adx > ADX_TRENDING ∧ r.plus_di > r.minus_di ∧ r.close > r.sma_50 then .trending_up
  else if r.adx > ADX_TRENDING ∧ r.minus_di > r.plus_di ∧ r.close < r.sma_50 then .trending_down
  else .ranging

/-- The hysteresis loop of `add_indicators_and_regime` (lines 104–121),
returning the committed segments as `(first, last, regime)` with both
endpoints inclusive, exactly as `df.loc[regime_start:i]` and
`df.loc[regime_start:]` mark them. -/
def regime_segments (raws : List Regime) : List (ℕ × ℕ × Regime) :=
  let n := raws.length
  let step := fun (st : Option Regime × ℕ × List (ℕ × ℕ × Regime)) (p : ℕ × Regime) =>
    let current := st.1
    let start := st.2.1
    let acc := st.2.2
    let i := p.1
    let new_regime := p.2
    if some new_regime ≠ current then
      let acc' :=
        match current with
        | some c => if i - start ≥ REGIME_MIN_DURATION then acc ++ [(start, i, c)] else acc
        | none => acc
      (some new_regime, i, acc')
    else st
  let fin := raws.enum.foldl step (none, 0, [])
  match fin.1 with
  | some c =>
      if n - fin.2.1 ≥ REGIME_MIN_DURATION then fin.2.2 ++ [(fin.2.1, n - 1, c)]
      else fin.2.2
  | none => fin.2.2

/-- Whether index `j` carries the committed flag for regime `r`
(the boolean `trending_up` / `trending_down` / `ranging` columns). -/
def regime_flag (segs : List (ℕ × ℕ × Regime)) (r : Regime) (j : ℕ) : Bool :=
  segs.any fun s => s.2.2 = r ∧ s.1 ≤ j ∧ j ≤ s.2.1

/-- The final `regime` column (lines 124–126): default ranging, overwrite
where `trending_up` is flagged, then overwrite where `trending_down` is
flagged — the last write wins where the flags overlap. -/
def final_regime_label (raws : List Regime) (j : ℕ) : Regime :=
  let segs := regime_segments raws
  if regime_flag segs .trending_down j then .trending_down
  else if regime_flag segs .trending_up j then .trending_up
  else .ranging

/-- The final per-candle regime labels of the whole series. -/
def final_regime_labels (raws : List Regime) : List Regime :=
  (List.range raws.length).map (final_regime_label raws)

/-! ## Regime router -/

/-- `DEFAULT_REGIME_TO_STRATEGY` of `core/regime_router.py`. -/
def DEFAULT_REGIME_TO_STRATEGY : List (String × String) :=
  [("trending_up", "trend_macd"), ("trending_down", "trend_macd"), ("ranging", "range_rsi_bb")]

/-- `core/regime_router.py`, `get_active_strategy` (lines 15–21), modelled
down to the resolved strategy name: `mappings.get(regime)` that is falsy
(key absent, or mapped to the empty string) raises `ValueError`; a `None`
mappings object falls back to the default table.  The final
`get_strategy(strategy_name)` (a JSON file load in
`core/strategy_loader.py`) is outside the model and is applied to the
`Except.ok` name by the caller. -/
def get_active_strategy (regime : String)
    (mappings : Option (List (String × String))) : Except String String :=
  let m := match mappings with
    | none => DEFAULT_REGIME_TO_STRATEGY
    | some ms => ms
  match m.lookup regime with
  | none => Except.error ("No strategy mapped for regime: " ++ regime)
  | some strategy_name =>
      if strategy_name = "" then Except.error ("No strategy mapped for regime: " ++ regime)
      else Except.ok strategy_name

/-! ## Result aggregation: maximum drawdown

`core/engine.py`, `run_backtest`, lines 631–634:
`peak = max(equity_floats)`, `trough = min(equity_floats)` (0 for an empty
list), `max_dd = peak - trough`, and
`max_dd_pct = (max_dd / peak) * 100 if peak > 0 else 0.0`. -/

/-- `max(equity_floats) if equity_floats else 0.0`. -/
def equity_peak : List ℚ → ℚ
  | [] => 0
  | x :: xs => xs.foldl max x

/-- `min(equity_floats) if equity_floats else 0.0`. -/
def equity_trough : List ℚ → ℚ
  | [] => 0
  | x :: xs => xs.foldl min x

/-- `max_dd = peak - trough if equity_floats else 0.0`. -/
def max_dd (equity : List ℚ) : ℚ :=
  if equity = [] then 0 else equity_peak equity - equity_trough equity

/-- `max_dd_pct = (max_dd / peak) * 100 if peak > 0 else 0.0`. -/
def max_dd_pct (equity : List ℚ) : ℚ :=
  if 0 < equity_peak equity then max_dd equity / equity_peak equity * 100 else 0

/-! ## Characterization helpers for the exit chain

Named forms of the branches of `tp_step` and
`stop_trailing_signal_steps`, with the source's boolean `is_long` guards
restated as propositions on the position (`decide (0 < p) = true ↔ 0 < p`);
equivalence with the functions above is proved in `tp_step_eq` and
`stop_trailing_signal_steps_eq` below. -/

/-- The take-profit trigger condition of `tp_step`, in terms of the
fields fixed at entry: the per-trade take-profit percentage is non-zero
and the close has reached `entry_price` scaled by it in the position's
direction. -/
def tp_fires_prop (s : BacktestState) (price : ℚ) : Prop :=
  s.entry_take_profit_pct ≠ 0 ∧
    ((0 < s.position ∧ price ≥ s.entry_price * (1 + s.entry_take_profit_pct)) ∨
     (¬ 0 < s.position ∧ price ≤ s.entry_price * (1 - s.entry_take_profit_pct)))

instance (s : BacktestState) (price : ℚ) : Decidable (tp_fires_prop s price) := by
  unfold tp_fires_prop
  infer_instance

/-- The stop-loss trigger condition of `stop_trailing_signal_steps`. -/
def sl_fires_prop (s1 : BacktestState) (price : ℚ) : Prop :=
  (0 < s1.position ∧ price ≤ s1.stop_price) ∨ (¬ 0 < s1.position ∧ price ≥ s1.stop_price)

instance (s1 : BacktestState) (price : ℚ) : Decidable (sl_fires_prop s1 price) := by
  unfold sl_fires_prop
  infer_instance

/-- The signal-exit condition of `stop_trailing_signal_steps`: any raw
condition fires, or — for a short — any inverted condition fires. -/
def signal_met (s1 : BacktestState) (row prev : Row) (signal_exit : List Condition)
    (adx_threshold : ℚ) : Bool :=
  (signal_exit.any fun c => evaluate_condition c row prev adx_threshold)
  || (if ¬ 0 < s1.position then
        (signal_exit.map invert_condition).any fun c =>
          evaluate_condition c row prev adx_threshold
      else false)

/-- The state produced by a triggered take-profit: close the partial
fraction (or everything when no fraction is configured). -/
def tp_result (s : BacktestState) (row : Row) (strategy_name : String)
    (fixed_rr fee_pct partial_exit_pct : ℚ) : BacktestState :=
  let close_amount := |s.position| * (if 0 < partial_exit_pct then partial_exit_pct else 1)
  let sc := record_close s row strategy_name ("take_profit") close_amount
    (decide (0 < s.position)) fixed_rr fee_pct
  { sc with
    position := s.position - (if 0 < s.position then close_amount else -close_amount)
    equity := sc.equity ++ [sc.capital] }

/-- The state produced by a full close (stop loss, signal exit, end of
data): close the whole remaining position. -/
def full_close_result (s : BacktestState) (row : Row) (strategy_name exit_reason : String)
    (is_long : Bool) (fixed_rr fee_pct : ℚ) : BacktestState :=
  let sc := record_close s row strategy_name exit_reason |s.position| is_long fixed_rr fee_pct
  { sc with equity := sc.equity ++ [sc.capital], position := 0 }

/-- The trailing-stop ratchet: when active, tighten (never loosen) the
stop toward the watermark. -/
def trail_result (s1 : BacktestState) (trailing_stop_pct : ℚ) : BacktestState :=
  if s1.trailing_active then
    (if 0 < s1.position then
      { s1 with stop_price := max s1.stop_price (s1.high_water * (1 - trailing_stop_pct)) }
     else
      { s1 with stop_price := min s1.stop_price (s1.low_water * (1 + trailing_stop_pct)) })
  else s1

/-! ## Observation helpers and concrete inputs used by the theorems -/

/-- The trades appended by one transition starting from state `s` and
ending in state `r` (every transition only appends to `trades`). -/
def new_trades (s r : BacktestState) : List TradeLog :=
  r.trades.drop s.trades.length

/-- Spec-side formula (from the spec's words, for comparison with the
code): a close's PnL is the directional gross PnL reduced by a fee of the
fee percentage times the closing leg's notional (closed amount × exit
price).  `|t.position|` is the closed amount, signed in `t.position` by
the trade's direction. -/
def spec_close_pnl (fee_pct : ℚ) (t : TradeLog) : ℚ :=
  (if 0 < t.position then (t.exit_price - t.entry_price) * t.position
   else (t.entry_price - t.exit_price) * (-t.position))
  - fee_pct * (|t.position| * t.exit_price)

/-- An indicator snapshot whose raw classification is `trending_up`
(ADX 30 > 25, +DI > −DI, close above the SMA). -/
def upSnap : RegimeRow := { adx := 30, plus_di := 2, minus_di := 1, close := 2, sma_50 := 1 }

/-- An indicator snapshot whose raw classification is `trending_down`
(ADX 30 > 25, −DI > +DI, close below the SMA). -/
def downSnap : RegimeRow :=
  { adx := 30, plus_di := 1, minus_di := 2, close := 1, sma_50 := 2 }

/-- Fifteen candles whose raw regimes are five `trending_down`, five
`trending_up`, five `trending_down`. -/
def c1_rows : List RegimeRow :=
  List.replicate 5 downSnap ++ List.replicate 5 upSnap ++ List.replicate 5 downSnap

/-- An `rsi` condition carrying both an `above` and a `below` parameter
(the schema validator of `core/sdl_validator.py` accepts it: only the
`type` tag of a condition is checked). -/
def rsi_both : Condition := { ctype := .rsi, above := some 70, below := some 30 }

/-- An `rsi` condition with only a `below` parameter. -/
def rsi_below_only : Condition := { ctype := .rsi, below := some 30 }

/-- A concrete open long state used to instantiate hypothesis-bearing
theorems: long 2 units entered at 100 with stop 95, take-profit 10%,
trailing inactive. -/
def sampleLong : BacktestState :=
  { capital := 100
    position := 2
    entry_price := 100
    entry_regime := "ranging"
    initial_exposure := 200
    stop_price := 95
    high_water := 100
    low_water := 100
    trailing_active := false
    entry_stop_price := 95
    entry_stop_distance_pct := 5
    entry_rr_multiple := 2
    entry_take_profit_pct := 1 / 10
    equity := [100] }

/-- A sample strategy with no conditions. -/
def sampleStrategy : Strategy :=
  { name := "s", direction := "long", entry_conditions := [] }

/-- A candle whose close 90 is at once below `sampleLong`'s stop 95 and
(for the take-profit direction of a short) usable in witnesses; high/low
bracket the close. -/
def rowAt (price : ℚ) : Row :=
  { timestamp := "t1", close := price, high := price, low := price }

/-! ## Theorems -/

section Theorems

/-- C1: the spec asserts a hard invariant — every accepted
trending_up/trending_down run in the final per-candle labels is at least
`REGIME_MIN_DURATION = 5` candles long — and the loop's length test
`i - regime_start >= REGIME_MIN_DURATION` shows that intent; but the
pandas marking `df.loc[regime_start:i, current_regime] = True` is
inclusive of `i`, spilling each committed segment one candle into the
following segment, and the final `regime` column resolves an overlap in
favour of `trending_down`.  On raw regimes down⁵ up⁵ down⁵ (all three
segments long enough to commit) the final labels are down⁶ up⁴ down⁵: a
maximal `trending_up` run of four candles, violating the invariant. -/
theorem c1_min_duration_filter_violated :
    (raw_regime upSnap = .trending_up ∧ raw_regime downSnap = .trending_down) ∧
    final_regime_labels (c1_rows.map raw_regime) =
      List.replicate 6 .trending_down ++ List.replicate 4 .trending_up ++
        List.replicate 5 .trending_down ∧
    4 < REGIME_MIN_DURATION := by
  decide

/-- C4: in equity-percent sizing with positive price and positive
notional, the size is `capital × position_frac ÷ price`; the stop
percentage is `risk_per_trade_frac ÷ position_frac - fee_pct` when that is
positive, else the configured stop; the take-profit percentage is the
reward multiple times the stop percentage. -/
theorem c4_equity_pct_sizing (capital price position_frac risk_per_trade_frac fixed_rr
    stop_loss_pct_cfg take_profit_pct_cfg max_exposure_usd fee_pct : ℚ)
    (hprice : 0 < price) (hnotional : 0 < capital * position_frac) :
    compute_position_and_stops capital price position_frac risk_per_trade_frac fixed_rr
        "equity_pct" stop_loss_pct_cfg take_profit_pct_cfg max_exposure_usd fee_pct =
      (capital * position_frac / price,
       (if risk_per_trade_frac / position_frac - fee_pct ≤ 0 then stop_loss_pct_cfg
        else risk_per_trade_frac / position_frac - fee_pct),
       fixed_rr *
         (if risk_per_trade_frac / position_frac - fee_pct ≤ 0 then stop_loss_pct_cfg
          else risk_per_trade_frac / position_frac - fee_pct)) := by
  have h1 : ¬ (capital * position_frac ≤ 0 ∨ price ≤ 0) := by
    push_neg
    exact ⟨hnotional, hprice⟩
  simp only [compute_position_and_stops, if_neg h1, if_pos hnotional]
  simp

/-- Witness for C4 at capital 100, price 10, position fraction 1/2, risk
fraction 1/100, reward multiple 3/2, fee 1/1000: size 5, derived stop
19/1000, take-profit 57/2000. -/
theorem c4_equity_pct_sizing_witness :
    (0 : ℚ) < 10 ∧ (0 : ℚ) < 100 * (1 / 2) ∧
    compute_position_and_stops 100 10 (1 / 2) (1 / 100) (3 / 2) "equity_pct"
        (3 / 100) (18 / 100) 100 (1 / 1000) =
      (100 * (1 / 2) / 10,
       (if (1 : ℚ) / 100 / (1 / 2) - 1 / 1000 ≤ 0 then 3 / 100
        else 1 / 100 / (1 / 2) - 1 / 1000),
       3 / 2 *
         (if (1 : ℚ) / 100 / (1 / 2) - 1 / 1000 ≤ 0 then 3 / 100
          else 1 / 100 / (1 / 2) - 1 / 1000)) :=
  ⟨by norm_num, by norm_num,
    c4_equity_pct_sizing 100 10 (1 / 2) (1 / 100) (3 / 2) (3 / 100) (18 / 100) 100 (1 / 1000)
      (by norm_num) (by norm_num)⟩

/-- C5 counterexample: `rsi` is an invertible type (the condition is not
returned unchanged), yet inverting an `rsi` condition that carries both an
`above` and a `below` parameter twice does not reproduce it: the first
inversion overwrites `above` with `100 - below` and drops `below`, losing
the original `above`. -/
theorem c5_invert_rsi_both_counterexample :
    rsi_both.ctype = .rsi ∧
    invert_condition rsi_both ≠ rsi_both ∧
    invert_condition (invert_condition rsi_both) ≠ rsi_both := by
  refine ⟨rfl, ?_, ?_⟩ <;> simp [invert_condition, rsi_both]

/-- C5 (amended): applying `invert_condition` twice reproduces the
original condition for every condition of every type, except an `rsi`
condition carrying both an `above` and a `below` parameter. -/
theorem c5_invert_condition_involutive (c : Condition)
    (h : c.ctype = .rsi → ¬ (c.above.isSome ∧ c.below.isSome)) :
    invert_condition (invert_condition c) = c := by
  obtain ⟨t, ab, be, dir, f, sl, per, bp, mul, mpp, minp⟩ := c
  cases t <;> simp only [invert_condition] <;> try rfl
  case rsi =>
    have h2 := h rfl
    rcases be with _ | b
    · rcases ab with _ | a
      · rfl
      · have ha : (100 : ℚ) - (100 - a) = a := by ring
        simp [ha]
    · rcases ab with _ | a
      · have hb : (100 : ℚ) - (100 - b) = b := by ring
        simp [hb]
      · exact (h2 ⟨rfl, rfl⟩).elim
  case macd_cross =>
    rcases dir with _ | s
    · rfl
    · by_cases hu : s = "up"
      · simp [hu]
      · by_cases hd : s = "down" <;> simp [hu, hd]
  case ema_cross =>
    rcases dir with _ | s
    · rfl
    · by_cases hu : s = "up"
      · simp [hu]
      · by_cases hd : s = "down" <;> simp [hu, hd]
  case stochastic_cross =>
    rcases dir with _ | s
    · rfl
    · by_cases hu : s = "up"
      · simp [hu]
      · by_cases hd : s = "down" <;> simp [hu, hd]
  case trend_pullback =>
    rcases dir with _ | s
    · rfl
    · by_cases hl : s = "long"
      · simp [hl]
      · by_cases hs : s = "short" <;> simp [hl, hs]

/-- Witness for C5 at an `rsi` condition with only a `below` parameter:
the double inversion reproduces it. -/
theorem c5_invert_condition_involutive_witness :
    invert_condition (invert_condition rsi_below_only) = rsi_below_only :=
  c5_invert_condition_involutive rsi_below_only (by decide)

/-- C8: router resolution with a supplied mapping that has no entry for
the current regime fails (raises `ValueError` in the source) rather than
substituting a default; the fixed default table is consulted only when no
mapping object at all is supplied. -/
theorem c8_router_unmapped_regime_fails (regime : String) (ms : List (String × String))
    (h : ms.lookup regime = none) :
    get_active_strategy regime (some ms) =
      Except.error ("No strategy mapped for regime: " ++ regime) ∧
    ∀ r : String, get_active_strategy r none =
      get_active_strategy r (some DEFAULT_REGIME_TO_STRATEGY) := by
  constructor
  · simp only [get_active_strategy, h]
  · intro r
    rfl

/-- Witness for C8: a mapping that only covers `ranging` fails for
`trending_up`, and the no-mapping call equals the default-table call. -/
theorem c8_router_unmapped_regime_fails_witness :
    get_active_strategy ("trending_up") (some [("ranging", "range_rsi_bb")]) =
      Except.error ("No strategy mapped for regime: " ++ "trending_up") ∧
    ∀ r : String, get_active_strategy r none =
      get_active_strategy r (some DEFAULT_REGIME_TO_STRATEGY) :=
  c8_router_unmapped_regime_fails ("trending_up") [("ranging", "range_rsi_bb")] (by decide)

/-- C10: the condition evaluator is total and fails closed — a condition
whose type tag is outside the supported set evaluates to `false` (the
fall-through of `evaluate_condition`), and an `rsi` condition carrying
neither an `above` nor a `below` parameter also evaluates to `false`. -/
theorem c10_evaluator_total_fail_closed (c : Condition) (row prev : Row)
    (adx_threshold : ℚ) :
    (∀ tag : String, c.ctype = .other tag →
      evaluate_condition c row prev adx_threshold = false) ∧
    (c.ctype = .rsi → c.above = none → c.below = none →
      evaluate_condition c row prev adx_threshold = false) := by
  constructor
  · intro tag ht
    simp [evaluate_condition, ht]
  · intro ht ha hb
    simp [evaluate_condition, ht, ha, hb]

/-- Witness for C10: an unknown tag and a parameterless `rsi` condition
both evaluate to `false` on a concrete row. -/
theorem c10_evaluator_total_fail_closed_witness :
    evaluate_condition { ctype := .other ("unsupported_type") } {} {} 30 = false ∧
    evaluate_condition { ctype := .rsi } {} {} 30 = false :=
  ⟨(c10_evaluator_total_fail_closed { ctype := .other ("unsupported_type") } {} {} 30).1
      ("unsupported_type") rfl,
   (c10_evaluator_total_fail_closed { ctype := .rsi } {} {} 30).2 rfl rfl rfl⟩

/-- Helper: a max-fold dominates its seed. -/
theorem le_foldl_max (xs : List ℚ) (a : ℚ) : a ≤ xs.foldl max a := by
  induction xs generalizing a with
  | nil => exact le_refl a
  | cons x xs ih => exact le_trans (le_max_left a x) (ih (max a x))

/-- Helper: a max-fold returns its seed or a list member. -/
theorem foldl_max_mem (xs : List ℚ) (a : ℚ) : xs.foldl max a = a ∨ xs.foldl max a ∈ xs := by
  induction xs generalizing a with
  | nil => exact Or.inl rfl
  | cons x xs ih =>
      rcases ih (max a x) with h | h
      · rcases max_choice a x with h1 | h1
        · exact Or.inl (by rw [List.foldl_cons, h, h1])
        · refine Or.inr ?_
          rw [List.foldl_cons, h, h1]
          exact List.mem_cons_self x xs
      · exact Or.inr (List.mem_cons_of_mem x h)

/-- Helper: a max-fold dominates every list member. -/
theorem mem_le_foldl_max (xs : List ℚ) (a y : ℚ) (hy : y ∈ xs) : y ≤ xs.foldl max a := by
  induction xs generalizing a with
  | nil => cases hy
  | cons x xs ih =>
      rcases List.mem_cons.mp hy with h | h
      · subst h
        exact le_trans (le_max_right a y) (le_foldl_max xs (max a y))
      · exact ih (max a x) h

/-- Helper: a min-fold is bounded by its seed. -/
theorem foldl_min_le (xs : List ℚ) (a : ℚ) : xs.foldl min a ≤ a := by
  induction xs generalizing a with
  | nil => exact le_refl a
  | cons x xs ih => exact le_trans (ih (min a x)) (min_le_left a x)

/-- Helper: a min-fold returns its seed or a list member. -/
theorem foldl_min_mem (xs : List ℚ) (a : ℚ) : xs.foldl min a = a ∨ xs.foldl min a ∈ xs := by
  induction xs generalizing a with
  | nil => exact Or.inl rfl
  | cons x xs ih =>
      rcases ih (min a x) with h | h
      · rcases min_choice a x with h1 | h1
        · exact Or.inl (by rw [List.foldl_cons, h, h1])
        · refine Or.inr ?_
          rw [List.foldl_cons, h, h1]
          exact List.mem_cons_self x xs
      · exact Or.inr (List.mem_cons_of_mem x h)

/-- Helper: a min-fold is bounded by every list member. -/
theorem foldl_min_le_mem (xs : List ℚ) (a y : ℚ) (hy : y ∈ xs) : xs.foldl min a ≤ y := by
  induction xs generalizing a with
  | nil => cases hy
  | cons x xs ih =>
      rcases List.mem_cons.mp hy with h | h
      · subst h
        exact le_trans (foldl_min_le xs (min a y)) (min_le_right a y)
      · exact ih (min a x) h

/-- Helper: the peak of a nonempty trajectory is attained. -/
theorem equity_peak_mem (l : List ℚ) (h : l ≠ []) : equity_peak l ∈ l := by
  match l with
  | x :: xs =>
      rcases foldl_max_mem xs x with h1 | h1
      · rw [equity_peak, h1]
        exact List.mem_cons_self x xs
      · exact List.mem_cons_of_mem x h1

/-- Helper: the peak dominates every trajectory entry. -/
theorem le_equity_peak (l : List ℚ) (y : ℚ) (hy : y ∈ l) : y ≤ equity_peak l := by
  match l with
  | x :: xs =>
      rcases List.mem_cons.mp hy with h1 | h1
      · subst h1
        exact le_foldl_max xs y
      · exact mem_le_foldl_max xs x y h1

/-- Helper: the trough of a nonempty trajectory is attained. -/
theorem equity_trough_mem (l : List ℚ) (h : l ≠ []) : equity_trough l ∈ l := by
  match l with
  | x :: xs =>
      rcases foldl_min_mem xs x with h1 | h1
      · rw [equity_trough, h1]
        exact List.mem_cons_self x xs
      · exact List.mem_cons_of_mem x h1

/-- Helper: the trough is bounded by every trajectory entry. -/
theorem equity_trough_le (l : List ℚ) (y : ℚ) (hy : y ∈ l) : equity_trough l ≤ y := by
  match l with
  | x :: xs =>
      rcases List.mem_cons.mp hy with h1 | h1
      · subst h1
        exact foldl_min_le xs y
      · exact foldl_min_le_mem xs x y h1

/-- C9: for a nonempty capital trajectory the reported maximum drawdown is
the largest trajectory value minus the smallest (`equity_peak` really is
the largest value and `equity_trough` the smallest), the percentage form
is that difference over the largest value times 100 (whenever the peak is
positive, as it always is for a run that starts from the positive fixed
starting capital), and when every trajectory entry is positive,
`max_dd ≥ 0` and `max_dd_pct ∈ [0, 100]`. -/
theorem c9_max_drawdown_spec (l : List ℚ) (h : l ≠ []) :
    (equity_peak l ∈ l ∧ (∀ x ∈ l, x ≤ equity_peak l) ∧
     equity_trough l ∈ l ∧ (∀ x ∈ l, equity_trough l ≤ x)) ∧
    max_dd l = equity_peak l - equity_trough l ∧
    (0 < equity_peak l →
      max_dd_pct l = (equity_peak l - equity_trough l) / equity_peak l * 100) ∧
    ((∀ x ∈ l, 0 < x) → 0 ≤ max_dd l ∧ 0 ≤ max_dd_pct l ∧ max_dd_pct l ≤ 100) := by
  have hpm := equity_peak_mem l h
  have htm := equity_trough_mem l h
  have hdd : max_dd l = equity_peak l - equity_trough l := by
    rw [max_dd, if_neg h]
  refine ⟨⟨hpm, fun x hx => le_equity_peak l x hx, htm, fun x hx => equity_trough_le l x hx⟩,
    hdd, ?_, ?_⟩
  · intro hpk
    rw [max_dd_pct, if_pos hpk, hdd]
  · intro hpos
    have hp0 : 0 < equity_peak l := hpos _ hpm
    have ht0 : 0 < equity_trough l := hpos _ htm
    have hle : equity_trough l ≤ equity_peak l := le_equity_peak l _ htm
    have hdd0 : 0 ≤ max_dd l := by
      rw [hdd]
      linarith
    refine ⟨hdd0, ?_, ?_⟩
    · rw [max_dd_pct, if_pos hp0]
      exact mul_nonneg (div_nonneg hdd0 hp0.le) (by norm_num)
    · rw [max_dd_pct, if_pos hp0, hdd]
      have hq : (equity_peak l - equity_trough l) / equity_peak l ≤ 1 := by
        rw [div_le_one hp0]
        linarith
      nlinarith

/-- Witness for C9 at the trajectory `[100, 50, 150]`: peak 150, trough
50, drawdown 100, percentage 200/3. -/
theorem c9_max_drawdown_spec_witness :
    (equity_peak [100, 50, 150] ∈ [(100 : ℚ), 50, 150] ∧
     (∀ x ∈ [(100 : ℚ), 50, 150], x ≤ equity_peak [100, 50, 150]) ∧
     equity_trough [100, 50, 150] ∈ [(100 : ℚ), 50, 150] ∧
     (∀ x ∈ [(100 : ℚ), 50, 150], equity_trough [100, 50, 150] ≤ x)) ∧
    max_dd [100, 50, 150] = equity_peak [100, 50, 150] - equity_trough [100, 50, 150] ∧
    (0 < equity_peak [(100 : ℚ), 50, 150] →
      max_dd_pct [100, 50, 150] =
        (equity_peak [100, 50, 150] - equity_trough [100, 50, 150]) /
          equity_peak [100, 50, 150] * 100) ∧
    ((∀ x ∈ [(100 : ℚ), 50, 150], 0 < x) →
      0 ≤ max_dd [100, 50, 150] ∧ 0 ≤ max_dd_pct [100, 50, 150] ∧
        max_dd_pct [100, 50, 150] ≤ 100) :=
  c9_max_drawdown_spec [100, 50, 150] (by simp)

/-! ### Projection and characterization lemmas for the exit chain -/

@[simp]
theorem record_close_position (s : BacktestState) (row : Row) (n er : String) (ca : ℚ)
    (il : Bool) (rr fee : ℚ) : (record_close s row n er ca il rr fee).position = s.position :=
  rfl

@[simp]
theorem record_close_stop_price (s : BacktestState) (row : Row) (n er : String) (ca : ℚ)
    (il : Bool) (rr fee : ℚ) : (record_close s row n er ca il rr fee).stop_price = s.stop_price :=
  rfl

@[simp]
theorem record_close_entry_take_profit_pct (s : BacktestState) (row : Row) (n er : String)
    (ca : ℚ) (il : Bool) (rr fee : ℚ) :
    (record_close s row n er ca il rr fee).entry_take_profit_pct = s.entry_take_profit_pct :=
  rfl

@[simp]
theorem record_close_entry_price (s : BacktestState) (row : Row) (n er : String) (ca : ℚ)
    (il : Bool) (rr fee : ℚ) :
    (record_close s row n er ca il rr fee).entry_price = s.entry_price :=
  rfl

@[simp]
theorem record_close_capital (s : BacktestState) (row : Row) (n er : String) (ca : ℚ)
    (il : Bool) (rr fee : ℚ) :
    (record_close s row n er ca il rr fee).capital =
      s.capital + compute_pnl il s.entry_price row.close ca fee :=
  rfl

@[simp]
theorem record_close_trades (s : BacktestState) (row : Row) (n er : String) (ca : ℚ)
    (il : Bool) (rr fee : ℚ) :
    (record_close s row n er ca il rr fee).trades =
      s.trades ++ [build_trade s.entry_ts row.timestamp s.entry_price row.close ca
        (compute_pnl il s.entry_price row.close ca fee) s.entry_regime n er il
        s.initial_exposure s.high_water s.low_water s.entry_stop_price rr
        s.entry_stop_distance_pct s.entry_rr_multiple] :=
  rfl

@[simp]
theorem build_trade_exit_reason (a b : String) (c d e f : ℚ) (g h i : String) (il : Bool)
    (j k l m n o p : ℚ) :
    (build_trade a b c d e f g h i il j k l m n o p).exit_reason = i :=
  rfl

@[simp]
theorem build_trade_pnl (a b : String) (c d e f : ℚ) (g h i : String) (il : Bool)
    (j k l m n o p : ℚ) : (build_trade a b c d e f g h i il j k l m n o p).pnl = f :=
  rfl

@[simp]
theorem build_trade_position (a b : String) (c d e f : ℚ) (g h i : String) (il : Bool)
    (j k l m n o p : ℚ) :
    (build_trade a b c d e f g h i il j k l m n o p).position = if il then e else -e :=
  rfl

@[simp]
theorem build_trade_exit_price (a b : String) (c d e f : ℚ) (g h i : String) (il : Bool)
    (j k l m n o p : ℚ) : (build_trade a b c d e f g h i il j k l m n o p).exit_price = d :=
  rfl

@[simp]
theorem build_trade_entry_price (a b : String) (c d e f : ℚ) (g h i : String) (il : Bool)
    (j k l m n o p : ℚ) : (build_trade a b c d e f g h i il j k l m n o p).entry_price = c :=
  rfl

/-- `tp_step` is the take-profit branch exactly when `tp_fires_prop`
holds, and the identity otherwise. -/
theorem tp_step_eq (s : BacktestState) (row : Row) (n : String) (rr fee pe : ℚ) :
    tp_step s row n rr fee pe =
      if tp_fires_prop s row.close then tp_result s row n rr fee pe else s := by
  by_cases h1 : s.entry_take_profit_pct = 0
  · simp [tp_step, tp_fires_prop, h1]
  · by_cases h2 : 0 < s.position
    · by_cases h3 : row.close ≥ s.entry_price * (1 + s.entry_take_profit_pct) <;>
        simp [tp_step, tp_fires_prop, tp_result, h1, h2, h3]
    · by_cases h3 : row.close ≤ s.entry_price * (1 - s.entry_take_profit_pct) <;>
        simp [tp_step, tp_fires_prop, tp_result, h1, h2, h3]

/-- `stop_trailing_signal_steps` characterized through `sl_fires_prop`,
`trail_result` and `signal_met`. -/
theorem stop_trailing_signal_steps_eq (s1 : BacktestState) (row prev : Row) (n : String)
    (sx : List Condition) (tr rr fee adxt : ℚ) :
    stop_trailing_signal_steps s1 row prev n sx tr rr fee adxt =
      if sl_fires_prop s1 row.close then
        full_close_result s1 row n ("stop_loss") (decide (0 < s1.position)) rr fee
      else if signal_met s1 row prev sx adxt then
        full_close_result (trail_result s1 tr) row n ("signal_exit")
          (decide (0 < s1.position)) rr fee
      else trail_result s1 tr := by
  by_cases h2 : 0 < s1.position
  · by_cases h4 : row.close ≤ s1.stop_price <;>
      simp [stop_trailing_signal_steps, sl_fires_prop, full_close_result, trail_result,
        signal_met, h2, h4]
  · by_cases h4 : row.close ≥ s1.stop_price <;>
      simp [stop_trailing_signal_steps, sl_fires_prop, full_close_result, trail_result,
        signal_met, h2, h4]

/-- `handle_exits_for_bar` characterized through the named branch
results. -/
theorem handle_exits_for_bar_eq (s : BacktestState) (row prev : Row) (strat : Strategy)
    (sx : List Condition) (tr rr fee adxt pe : ℚ) :
    handle_exits_for_bar s row prev strat sx tr rr fee adxt pe =
      if s.position = 0 then s
      else
        let s1 := if tp_fires_prop s row.close then tp_result s row strat.name rr fee pe else s
        if s1.position = 0 then s1
        else if sl_fires_prop s1 row.close then
          full_close_result s1 row strat.name ("stop_loss") (decide (0 < s1.position)) rr fee
        else if signal_met s1 row prev sx adxt then
          full_close_result (trail_result s1 tr) row strat.name ("signal_exit")
            (decide (0 < s1.position)) rr fee
        else trail_result s1 tr := by
  simp only [handle_exits_for_bar, tp_step_eq, stop_trailing_signal_steps_eq]

/-- The position left by a triggered take-profit is `(1 - fraction)`
times the old position (full close when no fraction is configured). -/
theorem tp_result_position (s : BacktestState) (row : Row) (n : String) (rr fee pe : ℚ) :
    (tp_result s row n rr fee pe).position =
      (1 - (if 0 < pe then pe else 1)) * s.position := by
  rcases lt_trichotomy s.position 0 with h | h | h
  · have h2 : ¬ 0 < s.position := by linarith
    simp only [tp_result, record_close_position]
    rw [if_neg h2, abs_of_neg h]
    ring
  · simp [tp_result, h]
  · simp only [tp_result, record_close_position]
    rw [if_pos h, abs_of_pos h]
    ring

@[simp]
theorem tp_result_stop_price (s : BacktestState) (row : Row) (n : String) (rr fee pe : ℚ) :
    (tp_result s row n rr fee pe).stop_price = s.stop_price :=
  rfl

@[simp]
theorem tp_result_entry_take_profit_pct (s : BacktestState) (row : Row) (n : String)
    (rr fee pe : ℚ) :
    (tp_result s row n rr fee pe).entry_take_profit_pct = s.entry_take_profit_pct :=
  rfl

@[simp]
theorem tp_result_entry_price (s : BacktestState) (row : Row) (n : String) (rr fee pe : ℚ) :
    (tp_result s row n rr fee pe).entry_price = s.entry_price :=
  rfl

@[simp]
theorem full_close_result_position (s : BacktestState) (row : Row) (n er : String)
    (il : Bool) (rr fee : ℚ) : (full_close_result s row n er il rr fee).position = 0 :=
  rfl

@[simp]
theorem full_close_result_stop_price (s : BacktestState) (row : Row) (n er : String)
    (il : Bool) (rr fee : ℚ) :
    (full_close_result s row n er il rr fee).stop_price = s.stop_price :=
  rfl

@[simp]
theorem full_close_result_entry_take_profit_pct (s : BacktestState) (row : Row)
    (n er : String) (il : Bool) (rr fee : ℚ) :
    (full_close_result s row n er il rr fee).entry_take_profit_pct =
      s.entry_take_profit_pct :=
  rfl

@[simp]
theorem full_close_result_entry_price (s : BacktestState) (row : Row) (n er : String)
    (il : Bool) (rr fee : ℚ) :
    (full_close_result s row n er il rr fee).entry_price = s.entry_price :=
  rfl

@[simp]
theorem full_close_result_trades (s : BacktestState) (row : Row) (n er : String)
    (il : Bool) (rr fee : ℚ) :
    (full_close_result s row n er il rr fee).trades =
      s.trades ++ [build_trade s.entry_ts row.timestamp s.entry_price row.close
        |s.position| (compute_pnl il s.entry_price row.close |s.position| fee)
        s.entry_regime n er il s.initial_exposure s.high_water s.low_water
        s.entry_stop_price rr s.entry_stop_distance_pct s.entry_rr_multiple] :=
  rfl

@[simp]
theorem tp_result_trades (s : BacktestState) (row : Row) (n : String) (rr fee pe : ℚ) :
    (tp_result s row n rr fee pe).trades =
      s.trades ++ [build_trade s.entry_ts row.timestamp s.entry_price row.close
        (|s.position| * (if 0 < pe then pe else 1))
        (compute_pnl (decide (0 < s.position)) s.entry_price row.close
          (|s.position| * (if 0 < pe then pe else 1)) fee)
        s.entry_regime n ("take_profit") (decide (0 < s.position)) s.initial_exposure
        s.high_water s.low_water s.entry_stop_price rr s.entry_stop_distance_pct
        s.entry_rr_multiple] :=
  rfl

@[simp]
theorem trail_result_position (s1 : BacktestState) (tr : ℚ) :
    (trail_result s1 tr).position = s1.position := by
  unfold trail_result
  split
  · split <;> rfl
  · rfl

@[simp]
theorem trail_result_trades (s1 : BacktestState) (tr : ℚ) :
    (trail_result s1 tr).trades = s1.trades := by
  unfold trail_result
  split
  · split <;> rfl
  · rfl

@[simp]
theorem trail_result_entry_take_profit_pct (s1 : BacktestState) (tr : ℚ) :
    (trail_result s1 tr).entry_take_profit_pct = s1.entry_take_profit_pct := by
  unfold trail_result
  split
  · split <;> rfl
  · rfl

@[simp]
theorem trail_result_entry_price (s1 : BacktestState) (tr : ℚ) :
    (trail_result s1 tr).entry_price = s1.entry_price := by
  unfold trail_result
  split
  · split <;> rfl
  · rfl

@[simp]
theorem trail_result_high_water (s1 : BacktestState) (tr : ℚ) :
    (trail_result s1 tr).high_water = s1.high_water := by
  unfold trail_result
  split
  · split <;> rfl
  · rfl

@[simp]
theorem trail_result_low_water (s1 : BacktestState) (tr : ℚ) :
    (trail_result s1 tr).low_water = s1.low_water := by
  unfold trail_result
  split
  · split <;> rfl
  · rfl

/-- The trailing ratchet either leaves the stop alone or moves it to the
ratchet value, and only when trailing is active. -/
theorem trail_result_stop_price (s1 : BacktestState) (tr : ℚ) :
    (trail_result s1 tr).stop_price = s1.stop_price ∨
      (s1.trailing_active = true ∧
        ((trail_result s1 tr).stop_price = max s1.stop_price (s1.high_water * (1 - tr)) ∨
         (trail_result s1 tr).stop_price = min s1.stop_price (s1.low_water * (1 + tr)))) := by
  unfold trail_result
  by_cases ha : s1.trailing_active
  · by_cases h2 : 0 < s1.position
    · exact Or.inr ⟨ha, Or.inl (by simp [ha, h2])⟩
    · exact Or.inr ⟨ha, Or.inr (by simp [ha, h2])⟩
  · simp [ha]

@[simp]
theorem tp_result_trailing_active (s : BacktestState) (row : Row) (n : String)
    (rr fee pe : ℚ) : (tp_result s row n rr fee pe).trailing_active = s.trailing_active :=
  rfl

@[simp]
theorem tp_result_high_water (s : BacktestState) (row : Row) (n : String) (rr fee pe : ℚ) :
    (tp_result s row n rr fee pe).high_water = s.high_water :=
  rfl

@[simp]
theorem tp_result_low_water (s : BacktestState) (row : Row) (n : String) (rr fee pe : ℚ) :
    (tp_result s row n rr fee pe).low_water = s.low_water :=
  rfl

@[simp]
theorem trail_result_trailing_active (s1 : BacktestState) (tr : ℚ) :
    (trail_result s1 tr).trailing_active = s1.trailing_active := by
  unfold trail_result
  split
  · split <;> rfl
  · rfl

/-- Helper: exit processing never rewrites the per-trade fields fixed at
entry (`entry_take_profit_pct`, `entry_price`). -/
theorem handle_exits_entry_fields_preserved (s : BacktestState) (row prev : Row)
    (strat : Strategy) (sx : List Condition) (tr rr fee adxt pe : ℚ) :
    (handle_exits_for_bar s row prev strat sx tr rr fee adxt pe).entry_take_profit_pct =
      s.entry_take_profit_pct ∧
    (handle_exits_for_bar s row prev strat sx tr rr fee adxt pe).entry_price =
      s.entry_price := by
  rw [handle_exits_for_bar_eq]
  by_cases h0 : s.position = 0
  · simp [h0]
  · rw [if_neg h0]
    by_cases htp : tp_fires_prop s row.close <;>
      simp only [if_pos, if_neg, htp, ite_true, ite_false] <;>
      split_ifs <;> simp

/-- Helper: the first trade appended by exit processing is a take-profit
trade exactly when the position is open and the take-profit condition
over the entry-fixed fields holds.  The right-hand side mentions no
strategy-configuration argument of `handle_exits_for_bar`. -/
theorem handle_exits_head_tp_iff (s : BacktestState) (row prev : Row) (strat : Strategy)
    (sx : List Condition) (tr rr fee adxt pe : ℚ) :
    (new_trades s (handle_exits_for_bar s row prev strat sx tr rr fee adxt pe)).head?.map
        TradeLog.exit_reason = some ("take_profit") ↔
      (s.position ≠ 0 ∧ tp_fires_prop s row.close) := by
  rw [handle_exits_for_bar_eq]
  by_cases h0 : s.position = 0
  · simp [h0, new_trades, List.drop_length]
  · rw [if_neg h0]
    by_cases htp : tp_fires_prop s row.close
    · simp only [if_pos htp]
      have hiff : (s.position ≠ 0 ∧ tp_fires_prop s row.close) := ⟨h0, htp⟩
      split_ifs <;>
        simp [new_trades, List.drop_left, List.append_assoc, hiff, h0, htp]
    · simp only [if_neg htp, if_neg h0]
      split_ifs <;>
        simp [new_trades, List.drop_length, List.drop_left, htp]

/-- Helper: the stop price after exit processing is either unchanged or
one of the two trailing-ratchet values, and moves only when trailing is
active — it is never re-derived from any strategy-configuration
argument. -/
theorem handle_exits_stop_price_ratchet_only (s : BacktestState) (row prev : Row)
    (strat : Strategy) (sx : List Condition) (tr rr fee adxt pe : ℚ) :
    (handle_exits_for_bar s row prev strat sx tr rr fee adxt pe).stop_price =
        s.stop_price ∨
      (s.trailing_active = true ∧
        ((handle_exits_for_bar s row prev strat sx tr rr fee adxt pe).stop_price =
            max s.stop_price (s.high_water * (1 - tr)) ∨
         (handle_exits_for_bar s row prev strat sx tr rr fee adxt pe).stop_price =
            min s.stop_price (s.low_water * (1 + tr)))) := by
  rw [handle_exits_for_bar_eq]
  by_cases h0 : s.position = 0
  · simp [h0]
  · rw [if_neg h0]
    by_cases htp : tp_fires_prop s row.close
    · simp only [if_pos htp]
      split_ifs
      · exact Or.inl (by simp)
      · exact Or.inl (by simp)
      · rcases trail_result_stop_price (tp_result s row strat.name rr fee pe) tr with h | ⟨ha, h⟩
        · exact Or.inl (by simpa using h)
        · refine Or.inr ⟨by simpa using ha, ?_⟩
          rcases h with h | h
          · exact Or.inl (by simpa using h)
          · exact Or.inr (by simpa using h)
      · rcases trail_result_stop_price (tp_result s row strat.name rr fee pe) tr with h | ⟨ha, h⟩
        · exact Or.inl (by simpa using h)
        · refine Or.inr ⟨by simpa using ha, ?_⟩
          rcases h with h | h
          · exact Or.inl (by simpa using h)
          · exact Or.inr (by simpa using h)
    · simp only [if_neg htp, if_neg h0]
      split_ifs
      · exact Or.inl (by simp)
      · rcases trail_result_stop_price s tr with h | ⟨ha, h⟩
        · exact Or.inl (by simpa using h)
        · exact Or.inr ⟨ha, by simpa using h⟩
      · rcases trail_result_stop_price s tr with h | ⟨ha, h⟩
        · exact Or.inl h
        · exact Or.inr ⟨ha, h⟩

/-- C2: on every candle of an open trade, the take-profit check uses only
the take-profit percentage and entry price fixed when the position was
entered (and preserves them), the outcome of the take-profit check is the
same for any two argument bundles of per-bar strategy-derived parameters
(so a routed strategy change mid-trade cannot alter it), and the stop
price changes only through the trailing-stop ratchet — never re-derived
from strategy configuration. -/
theorem c2_exit_uses_entry_fixed_tp_and_stop (s : BacktestState) (row prev : Row)
    (strat strat' : Strategy) (sx sx' : List Condition)
    (tr tr' rr rr' fee fee' adxt adxt' pe pe' : ℚ) :
    (handle_exits_for_bar s row prev strat sx tr rr fee adxt pe).entry_take_profit_pct =
        s.entry_take_profit_pct ∧
    (handle_exits_for_bar s row prev strat sx tr rr fee adxt pe).entry_price =
        s.entry_price ∧
    ((new_trades s (handle_exits_for_bar s row prev strat sx tr rr fee adxt pe)).head?.map
        TradeLog.exit_reason = some ("take_profit") ↔
      (s.position ≠ 0 ∧ s.entry_take_profit_pct ≠ 0 ∧
        ((0 < s.position ∧ row.close ≥ s.entry_price * (1 + s.entry_take_profit_pct)) ∨
         (s.position < 0 ∧ row.close ≤ s.entry_price * (1 - s.entry_take_profit_pct))))) ∧
    ((new_trades s (handle_exits_for_bar s row prev strat sx tr rr fee adxt pe)).head?.map
        TradeLog.exit_reason = some ("take_profit") ↔
     (new_trades s (handle_exits_for_bar s row prev strat' sx' tr' rr' fee' adxt' pe')).head?.map
        TradeLog.exit_reason = some ("take_profit")) ∧
    ((handle_exits_for_bar s row prev strat sx tr rr fee adxt pe).stop_price = s.stop_price ∨
      (s.trailing_active = true ∧
        ((handle_exits_for_bar s row prev strat sx tr rr fee adxt pe).stop_price =
            max s.stop_price (s.high_water * (1 - tr)) ∨
         (handle_exits_for_bar s row prev strat sx tr rr fee adxt pe).stop_price =
            min s.stop_price (s.low_water * (1 + tr))))) := by
  refine ⟨(handle_exits_entry_fields_preserved s row prev strat sx tr rr fee adxt pe).1,
    (handle_exits_entry_fields_preserved s row prev strat sx tr rr fee adxt pe).2,
    ?_, ?_, handle_exits_stop_price_ratchet_only s row prev strat sx tr rr fee adxt pe⟩
  · rw [handle_exits_head_tp_iff]
    unfold tp_fires_prop
    constructor
    · rintro ⟨h0, hpct, hdir⟩
      refine ⟨h0, hpct, ?_⟩
      rcases hdir with ⟨hl, hp⟩ | ⟨hl, hp⟩
      · exact Or.inl ⟨hl, hp⟩
      · exact Or.inr ⟨lt_of_le_of_ne (not_lt.mp hl) h0, hp⟩
    · rintro ⟨h0, hpct, hdir⟩
      refine ⟨h0, hpct, ?_⟩
      rcases hdir with ⟨hl, hp⟩ | ⟨hl, hp⟩
      · exact Or.inl ⟨hl, hp⟩
      · exact Or.inr ⟨not_lt.mpr hl.le, hp⟩
  · exact (handle_exits_head_tp_iff s row prev strat sx tr rr fee adxt pe).trans
      (handle_exits_head_tp_iff s row prev strat' sx' tr' rr' fee' adxt' pe').symm

/-- Helper: the stop-loss trigger only reads the position's sign and the
stop price. -/
theorem sl_fires_prop_congr (s1 s2 : BacktestState) (price : ℚ)
    (hsgn : 0 < s1.position ↔ 0 < s2.position) (hstop : s1.stop_price = s2.stop_price) :
    sl_fires_prop s1 price ↔ sl_fires_prop s2 price := by
  unfold sl_fires_prop
  rw [hsgn, hstop]

/-- Helper: the signal-exit check only reads the position's sign off the
state. -/
theorem signal_met_congr (s1 s2 : BacktestState) (row prev : Row) (sx : List Condition)
    (adxt : ℚ) (hsgn : 0 < s1.position ↔ 0 < s2.position) :
    signal_met s1 row prev sx adxt = signal_met s2 row prev sx adxt := by
  unfold signal_met
  by_cases h1 : 0 < s1.position
  · simp [h1, hsgn.mp h1]
  · have h2 : ¬ 0 < s2.position := fun hc => h1 (hsgn.mpr hc)
    simp [h1, h2]

/-- Helper: scaling by a positive factor preserves the sign test. -/
theorem pos_mul_sign_iff (c x : ℚ) (hc : 0 < c) : 0 < c * x ↔ 0 < x := by
  constructor
  · intro h
    by_contra hx
    push_neg at hx
    nlinarith
  · intro h
    exact mul_pos hc h

/-- C3: with a partial-exit fraction `0 < pe < 1` configured and a
position open, the exit checks run in the order take-profit, stop-loss,
trailing, signal-exit: a triggered take-profit closes exactly the
fraction `pe` of the position and the stop-loss check still runs against
the reduced `(1-pe)` position (closing it fully when it fires, with no
further exit processed); when the stop-loss does not fire, processing
continues to the signal check against the reduced position; a stop-loss
with no preceding take-profit closes the whole position as the only trade
of the candle and ends the candle's exit processing (the stop is not even
ratcheted). -/
theorem c3_exit_order_partial_tp_full_sl (s : BacktestState) (row prev : Row)
    (strat : Strategy) (sx : List Condition) (tr rr fee adxt pe : ℚ)
    (hpos : s.position ≠ 0) (hpe0 : 0 < pe) (hpe1 : pe < 1) :
    (tp_fires_prop s row.close → sl_fires_prop s row.close →
      (new_trades s (handle_exits_for_bar s row prev strat sx tr rr fee adxt pe)).map
          TradeLog.exit_reason = [("take_profit"), ("stop_loss")] ∧
      (new_trades s (handle_exits_for_bar s row prev strat sx tr rr fee adxt pe)).map
          (fun t => |t.position|) = [pe * |s.position|, (1 - pe) * |s.position|] ∧
      (handle_exits_for_bar s row prev strat sx tr rr fee adxt pe).position = 0) ∧
    (tp_fires_prop s row.close → ¬ sl_fires_prop s row.close →
      (new_trades s (handle_exits_for_bar s row prev strat sx tr rr fee adxt pe)).map
          TradeLog.exit_reason =
        ("take_profit") ::
          (if signal_met s row prev sx adxt then [("signal_exit")] else []) ∧
      (handle_exits_for_bar s row prev strat sx tr rr fee adxt pe).position =
        (if signal_met s row prev sx adxt then 0 else (1 - pe) * s.position)) ∧
    (¬ tp_fires_prop s row.close → sl_fires_prop s row.close →
      (new_trades s (handle_exits_for_bar s row prev strat sx tr rr fee adxt pe)).map
          TradeLog.exit_reason = [("stop_loss")] ∧
      (new_trades s (handle_exits_for_bar s row prev strat sx tr rr fee adxt pe)).map
          (fun t => |t.position|) = [|s.position|] ∧
      (handle_exits_for_bar s row prev strat sx tr rr fee adxt pe).position = 0 ∧
      (handle_exits_for_bar s row prev strat sx tr rr fee adxt pe).stop_price =
        s.stop_price) := by
  have h1pe : (0 : ℚ) < 1 - pe := by linarith
  have hca0 : (0 : ℚ) ≤ |s.position| * pe := mul_nonneg (abs_nonneg _) hpe0.le
  rw [handle_exits_for_bar_eq, if_neg hpos]
  have hs1pos : (tp_result s row strat.name rr fee pe).position = (1 - pe) * s.position := by
    rw [tp_result_position, if_pos hpe0]
  have hs1ne : (tp_result s row strat.name rr fee pe).position ≠ 0 := by
    rw [hs1pos]
    exact mul_ne_zero (ne_of_gt h1pe) hpos
  have hsgn : 0 < (tp_result s row strat.name rr fee pe).position ↔ 0 < s.position := by
    rw [hs1pos]
    exact pos_mul_sign_iff (1 - pe) s.position h1pe
  have hsl_iff : sl_fires_prop (tp_result s row strat.name rr fee pe) row.close ↔
      sl_fires_prop s row.close :=
    sl_fires_prop_congr _ _ _ hsgn (tp_result_stop_price s row strat.name rr fee pe)
  have habs1 : |(if decide (0 < s.position) = true then |s.position| * pe
      else -(|s.position| * pe) : ℚ)| = pe * |s.position| := by
    split_ifs <;> simp [abs_of_nonneg hca0, mul_comm] <;>
      exact mul_nonneg hpe0.le (abs_nonneg _)
  refine ⟨?_, ?_, ?_⟩
  · intro htp hsl
    rw [if_pos htp, if_neg hs1ne, if_pos (hsl_iff.mpr hsl)]
    refine ⟨?_, ?_, by simp⟩
    · simp [new_trades, List.append_assoc, List.drop_left]
    · simp only [new_trades, full_close_result_trades, tp_result_trades,
        List.append_assoc, List.drop_left, List.map_cons, List.map_nil,
        build_trade_position, List.cons_append, List.nil_append]
      rw [if_pos hpe0]
      refine congrArg₂ _ habs1 (congrArg₂ _ ?_ rfl)
      have : |(tp_result s row strat.name rr fee pe).position| = (1 - pe) * |s.position| := by
        rw [hs1pos, abs_mul, abs_of_pos h1pe]
      split_ifs <;> simp [this] <;> exact mul_nonneg h1pe.le (abs_nonneg _)
  · intro htp hsl
    rw [if_pos htp, if_neg hs1ne, if_neg (fun hc => hsl (hsl_iff.mp hc))]
    rw [signal_met_congr (tp_result s row strat.name rr fee pe) s row prev sx adxt hsgn]
    by_cases hm : signal_met s row prev sx adxt
    · rw [if_pos hm, if_pos hm, if_pos hm]
      refine ⟨?_, by simp⟩
      simp [new_trades, List.append_assoc, List.drop_left]
    · rw [if_neg hm]
      simp only [hm, if_false, ite_false, Bool.false_eq_true]
      refine ⟨?_, by simp [hs1pos]⟩
      simp [new_trades, List.append_assoc, List.drop_left]
  · intro htp hsl
    rw [if_neg htp, if_neg hpos, if_pos hsl]
    refine ⟨?_, ?_, by simp, by simp⟩
    · simp [new_trades, List.drop_left]
    · simp only [new_trades, full_close_result_trades, List.drop_left, List.map_cons,
        List.map_nil, build_trade_position]
      split_ifs <;> simp

/-- Helper: a trade built around `compute_pnl` with a nonnegative close
amount satisfies the spec's closing-fee formula. -/
theorem build_trade_pnl_spec (ets xts : String) (e price ca : ℚ) (reg n er : String)
    (il : Bool) (j k l m rr o p fee : ℚ) (hca : 0 ≤ ca) :
    (build_trade ets xts e price ca (compute_pnl il e price ca fee)
        reg n er il j k l m rr o p).pnl =
      spec_close_pnl fee
        (build_trade ets xts e price ca (compute_pnl il e price ca fee)
          reg n er il j k l m rr o p) := by
  rcases eq_or_lt_of_le hca with h | h
  · cases il <;>
      simp [spec_close_pnl, compute_pnl, ← h]
  · cases il
    · have hn : ¬ (0 : ℚ) < -ca := by linarith
      simp [spec_close_pnl, compute_pnl, hn, abs_neg, abs_of_pos h]
      try ring
    · simp [spec_close_pnl, compute_pnl, h, abs_of_pos h]
      try ring

/-- Helper: every trade appended by per-bar exit processing carries the
closing fee of the spec's formula and exits at the candle close. -/
theorem handle_exits_trades_pnl_spec (s : BacktestState) (row prev : Row) (strat : Strategy)
    (sx : List Condition) (tr rr fee adxt pe : ℚ) :
    ∀ t ∈ new_trades s (handle_exits_for_bar s row prev strat sx tr rr fee adxt pe),
      t.pnl = spec_close_pnl fee t ∧ t.exit_price = row.close := by
  rw [handle_exits_for_bar_eq]
  by_cases h0 : s.position = 0
  · simp [h0, new_trades, List.drop_length]
  · rw [if_neg h0]
    have hca1 : (0 : ℚ) ≤ |s.position| * (if 0 < pe then pe else 1) := by
      apply mul_nonneg (abs_nonneg _)
      split_ifs with hp
      · exact hp.le
      · norm_num
    by_cases htp : tp_fires_prop s row.close
    · simp only [if_pos htp]
      split_ifs with hz hsl hsig
      · intro t ht
        simp only [new_trades, tp_result_trades, List.drop_left,
          List.mem_singleton] at ht
        subst ht
        exact ⟨build_trade_pnl_spec _ _ _ _ _ _ _ _ _ _ _ _ _ _ _ _ _ hca1, rfl⟩
      · intro t ht
        simp only [new_trades, full_close_result_trades, tp_result_trades,
          List.append_assoc, List.cons_append, List.nil_append, List.drop_left,
          List.mem_cons, List.mem_singleton, List.not_mem_nil, or_false] at ht
        rcases ht with ht | ht
        · subst ht
          exact ⟨build_trade_pnl_spec _ _ _ _ _ _ _ _ _ _ _ _ _ _ _ _ _ hca1, rfl⟩
        · subst ht
          exact ⟨build_trade_pnl_spec _ _ _ _ _ _ _ _ _ _ _ _ _ _ _ _ _
            (abs_nonneg _), rfl⟩
      · intro t ht
        simp only [new_trades, full_close_result_trades, trail_result_trades,
          tp_result_trades, List.append_assoc, List.cons_append, List.nil_append,
          List.drop_left, List.mem_cons, List.mem_singleton, List.not_mem_nil,
          or_false] at ht
        rcases ht with ht | ht
        · subst ht
          exact ⟨build_trade_pnl_spec _ _ _ _ _ _ _ _ _ _ _ _ _ _ _ _ _ hca1, rfl⟩
        · subst ht
          exact ⟨build_trade_pnl_spec _ _ _ _ _ _ _ _ _ _ _ _ _ _ _ _ _
            (abs_nonneg _), rfl⟩
      · intro t ht
        simp only [new_trades, trail_result_trades, tp_result_trades, List.drop_left,
          List.mem_singleton] at ht
        subst ht
        exact ⟨build_trade_pnl_spec _ _ _ _ _ _ _ _ _ _ _ _ _ _ _ _ _ hca1, rfl⟩
    · simp only [if_neg htp, if_neg h0]
      split_ifs with hsl hsig
      · intro t ht
        simp only [new_trades, full_close_result_trades, List.drop_left,
          List.mem_singleton] at ht
        subst ht
        exact ⟨build_trade_pnl_spec _ _ _ _ _ _ _ _ _ _ _ _ _ _ _ _ _
          (abs_nonneg _), rfl⟩
      · intro t ht
        simp only [new_trades, full_close_result_trades, trail_result_trades,
          List.drop_left, List.mem_singleton] at ht
        subst ht
        exact ⟨build_trade_pnl_spec _ _ _ _ _ _ _ _ _ _ _ _ _ _ _ _ _
          (abs_nonneg _), rfl⟩
      · intro t ht
        simp only [new_trades, trail_result_trades, List.drop_length] at ht
        exact absurd ht (List.not_mem_nil t)

/-- Helper: the end-of-data close also charges the spec's closing fee. -/
theorem close_end_trades_pnl_spec (s : BacktestState) (row : Row) (strat : Strategy)
    (rr fee : ℚ) :
    ∀ t ∈ new_trades s (close_at_end_of_data s row strat rr fee),
      t.pnl = spec_close_pnl fee t ∧ t.exit_price = row.close := by
  unfold close_at_end_of_data
  by_cases h0 : s.position = 0
  · simp [h0, new_trades, List.drop_length]
  · rw [if_neg h0]
    intro t ht
    simp only [new_trades, record_close_trades, List.drop_left, List.mem_singleton] at ht
    subst ht
    exact ⟨build_trade_pnl_spec _ _ _ _ _ _ _ _ _ _ _ _ _ _ _ _ _ (abs_nonneg _), rfl⟩

/-- Helper: opening a position never changes capital, and when a position
is opened the trajectory entry appended equals the pre-entry capital. -/
theorem maybe_open_no_fee (s : BacktestState) (row prev : Row) (strat : Strategy)
    (current_regime : String) (adxt : ℚ) (sizing : String)
    (pf rft rr slc tpc meu tsp fee : ℚ) :
    (maybe_open_position s row prev strat current_regime adxt sizing
        pf rft rr slc tpc meu tsp fee).capital = s.capital ∧
    (maybe_open_position s row prev strat current_regime adxt sizing
        pf rft rr slc tpc meu tsp fee = s ∨
     (maybe_open_position s row prev strat current_regime adxt sizing
        pf rft rr slc tpc meu tsp fee).equity = s.equity ++ [s.capital]) := by
  unfold maybe_open_position
  split_ifs
  · exact ⟨rfl, Or.inl rfl⟩
  · exact ⟨rfl, Or.inr rfl⟩
  · exact ⟨rfl, Or.inl rfl⟩

/-- C6: every full or partial close — take-profit, stop-loss, signal
exit, or end-of-data closure — books a PnL equal to the directional gross
PnL minus a fee of the fee percentage times the closing leg's notional
(closed amount × exit price, the exit price being the candle close);
opening a position charges no fee, leaves capital unchanged, and the
capital-trajectory entry appended at entry equals the pre-entry
capital. -/
theorem c6_fee_on_close_only (s : BacktestState) (row prev : Row) (strat : Strategy)
    (sx : List Condition) (tr rr fee adxt pe : ℚ) (current_regime sizing : String)
    (pf rft slc tpc meu tsp : ℚ) :
    (∀ t ∈ new_trades s (handle_exits_for_bar s row prev strat sx tr rr fee adxt pe),
      t.pnl = spec_close_pnl fee t ∧ t.exit_price = row.close) ∧
    (∀ t ∈ new_trades s (close_at_end_of_data s row strat rr fee),
      t.pnl = spec_close_pnl fee t ∧ t.exit_price = row.close) ∧
    (maybe_open_position s row prev strat current_regime adxt sizing
        pf rft rr slc tpc meu tsp fee).capital = s.capital ∧
    (maybe_open_position s row prev strat current_regime adxt sizing
        pf rft rr slc tpc meu tsp fee = s ∨
     (maybe_open_position s row prev strat current_regime adxt sizing
        pf rft rr slc tpc meu tsp fee).equity = s.equity ++ [s.capital]) :=
  ⟨handle_exits_trades_pnl_spec s row prev strat sx tr rr fee adxt pe,
   close_end_trades_pnl_spec s row strat rr fee,
   (maybe_open_no_fee s row prev strat current_regime adxt sizing
      pf rft rr slc tpc meu tsp fee).1,
   (maybe_open_no_fee s row prev strat current_regime adxt sizing
      pf rft rr slc tpc meu tsp fee).2⟩

/-- Helper: the position after per-bar exit processing is zero, the old
position, or the old position scaled by `1 - fraction` from a partial
take-profit. -/
theorem handle_exits_position_cases (s : BacktestState) (row prev : Row) (strat : Strategy)
    (sx : List Condition) (tr rr fee adxt pe : ℚ) :
    (handle_exits_for_bar s row prev strat sx tr rr fee adxt pe).position = 0 ∨
    (handle_exits_for_bar s row prev strat sx tr rr fee adxt pe).position = s.position ∨
    (handle_exits_for_bar s row prev strat sx tr rr fee adxt pe).position =
      (1 - (if 0 < pe then pe else 1)) * s.position := by
  rw [handle_exits_for_bar_eq]
  by_cases h0 : s.position = 0
  · simp [h0]
  · rw [if_neg h0]
    by_cases htp : tp_fires_prop s row.close
    · simp only [if_pos htp]
      by_cases hz : (tp_result s row strat.name rr fee pe).position = 0
      · rw [if_pos hz]
        exact Or.inr (Or.inr (tp_result_position s row strat.name rr fee pe))
      · rw [if_neg hz]
        by_cases hsl : sl_fires_prop (tp_result s row strat.name rr fee pe) row.close
        · rw [if_pos hsl]
          exact Or.inl (by simp)
        · rw [if_neg hsl]
          by_cases hsig : signal_met (tp_result s row strat.name rr fee pe) row prev sx adxt = true
          · rw [if_pos hsig]
            exact Or.inl (by simp)
          · rw [if_neg hsig]
            refine Or.inr (Or.inr ?_)
            rw [trail_result_position]
            exact tp_result_position s row strat.name rr fee pe
    · simp only [if_neg htp, if_neg h0]
      by_cases hsl : sl_fires_prop s row.close
      · rw [if_pos hsl]
        exact Or.inl (by simp)
      · rw [if_neg hsl]
        by_cases hsig : signal_met s row prev sx adxt = true
        · rw [if_pos hsig]
          exact Or.inl (by simp)
        · rw [if_neg hsig]
          exact Or.inr (Or.inl (trail_result_position s tr))

/-- C7: a new position is opened only when the state is flat
(`maybe_open_position` is the identity on a non-flat state), and no exit
path flips a position's direction: the position after exit processing is
flat, unchanged, or the same position scaled by the remaining
`1 - fraction` of a partial take-profit — so whenever it is still open,
its sign is the sign it had at entry (given the partial fraction is a
true fraction, at most 1). -/
theorem c7_single_position_invariant (s : BacktestState) (row prev : Row) (strat : Strategy)
    (sx : List Condition) (tr rr fee adxt pe : ℚ) (current_regime sizing : String)
    (pf rft slc tpc meu tsp : ℚ) (hpe1 : pe ≤ 1) :
    (s.position ≠ 0 → maybe_open_position s row prev strat current_regime adxt sizing
        pf rft rr slc tpc meu tsp fee = s) ∧
    ((handle_exits_for_bar s row prev strat sx tr rr fee adxt pe).position = 0 ∨
     (handle_exits_for_bar s row prev strat sx tr rr fee adxt pe).position = s.position ∨
     (handle_exits_for_bar s row prev strat sx tr rr fee adxt pe).position =
       (1 - (if 0 < pe then pe else 1)) * s.position) ∧
    ((handle_exits_for_bar s row prev strat sx tr rr fee adxt pe).position ≠ 0 →
      (0 < (handle_exits_for_bar s row prev strat sx tr rr fee adxt pe).position ↔
        0 < s.position)) := by
  refine ⟨?_, handle_exits_position_cases s row prev strat sx tr rr fee adxt pe, ?_⟩
  · intro h
    unfold maybe_open_position
    rw [if_pos h]
  · intro hne
    rcases handle_exits_position_cases s row prev strat sx tr rr fee adxt pe with h | h | h
    · exact absurd h hne
    · rw [h]
    · rw [h] at hne ⊢
      have hk1 : (if 0 < pe then pe else 1) ≤ 1 := by
        split_ifs
        · exact hpe1
        · exact le_refl 1
      have hkne : 1 - (if 0 < pe then pe else 1) ≠ 0 := fun hc => hne (by rw [hc, zero_mul])
      have hkpos : 0 < 1 - (if 0 < pe then pe else 1) :=
        lt_of_le_of_ne (by linarith) (Ne.symm hkne)
      exact pos_mul_sign_iff _ s.position hkpos

/-- Witness for C3 at the concrete open long `sampleLong` (2 units at
entry 100, stop 95, take-profit 10%) on a candle closing at 90, with
partial-exit fraction 1/2. -/
theorem c3_exit_order_partial_tp_full_sl_witness :
    (tp_fires_prop sampleLong (rowAt 90).close → sl_fires_prop sampleLong (rowAt 90).close →
      (new_trades sampleLong (handle_exits_for_bar sampleLong (rowAt 90) (rowAt 90)
          sampleStrategy [] 0 (3 / 2) (1 / 1000) 30 (1 / 2))).map
          TradeLog.exit_reason = [("take_profit"), ("stop_loss")] ∧
      (new_trades sampleLong (handle_exits_for_bar sampleLong (rowAt 90) (rowAt 90)
          sampleStrategy [] 0 (3 / 2) (1 / 1000) 30 (1 / 2))).map
          (fun t => |t.position|) =
        [(1 / 2) * |sampleLong.position|, (1 - 1 / 2) * |sampleLong.position|] ∧
      (handle_exits_for_bar sampleLong (rowAt 90) (rowAt 90)
          sampleStrategy [] 0 (3 / 2) (1 / 1000) 30 (1 / 2)).position = 0) ∧
    (tp_fires_prop sampleLong (rowAt 90).close →
      ¬ sl_fires_prop sampleLong (rowAt 90).close →
      (new_trades sampleLong (handle_exits_for_bar sampleLong (rowAt 90) (rowAt 90)
          sampleStrategy [] 0 (3 / 2) (1 / 1000) 30 (1 / 2))).map
          TradeLog.exit_reason =
        ("take_profit") ::
          (if signal_met sampleLong (rowAt 90) (rowAt 90) [] 30 then [("signal_exit")]
           else []) ∧
      (handle_exits_for_bar sampleLong (rowAt 90) (rowAt 90)
          sampleStrategy [] 0 (3 / 2) (1 / 1000) 30 (1 / 2)).position =
        (if signal_met sampleLong (rowAt 90) (rowAt 90) [] 30 then 0
         else (1 - 1 / 2) * sampleLong.position)) ∧
    (¬ tp_fires_prop sampleLong (rowAt 90).close →
      sl_fires_prop sampleLong (rowAt 90).close →
      (new_trades sampleLong (handle_exits_for_bar sampleLong (rowAt 90) (rowAt 90)
          sampleStrategy [] 0 (3 / 2) (1 / 1000) 30 (1 / 2))).map
          TradeLog.exit_reason = [("stop_loss")] ∧
      (new_trades sampleLong (handle_exits_for_bar sampleLong (rowAt 90) (rowAt 90)
          sampleStrategy [] 0 (3 / 2) (1 / 1000) 30 (1 / 2))).map
          (fun t => |t.position|) = [|sampleLong.position|] ∧
      (handle_exits_for_bar sampleLong (rowAt 90) (rowAt 90)
          sampleStrategy [] 0 (3 / 2) (1 / 1000) 30 (1 / 2)).position = 0 ∧
      (handle_exits_for_bar sampleLong (rowAt 90) (rowAt 90)
          sampleStrategy [] 0 (3 / 2) (1 / 1000) 30 (1 / 2)).stop_price =
        sampleLong.stop_price) :=
  c3_exit_order_partial_tp_full_sl sampleLong (rowAt 90) (rowAt 90) sampleStrategy []
    0 (3 / 2) (1 / 1000) 30 (1 / 2) (by norm_num [sampleLong]) (by norm_num) (by norm_num)

/-- Witness for C7 at `sampleLong` with partial-exit fraction 1/2. -/
theorem c7_single_position_invariant_witness :
    (sampleLong.position ≠ 0 →
      maybe_open_position sampleLong (rowAt 90) (rowAt 90) sampleStrategy ("ranging") 30
        ("equity_pct") (1 / 2) (1 / 100) (3 / 2) (3 / 100) (18 / 100) 100 0 (1 / 1000) =
        sampleLong) ∧
    ((handle_exits_for_bar sampleLong (rowAt 90) (rowAt 90) sampleStrategy [] 0 (3 / 2)
        (1 / 1000) 30 (1 / 2)).position = 0 ∨
     (handle_exits_for_bar sampleLong (rowAt 90) (rowAt 90) sampleStrategy [] 0 (3 / 2)
        (1 / 1000) 30 (1 / 2)).position = sampleLong.position ∨
     (handle_exits_for_bar sampleLong (rowAt 90) (rowAt 90) sampleStrategy [] 0 (3 / 2)
        (1 / 1000) 30 (1 / 2)).position =
       (1 - (if (0 : ℚ) < 1 / 2 then (1 / 2 : ℚ) else 1)) * sampleLong.position) ∧
    ((handle_exits_for_bar sampleLong (rowAt 90) (rowAt 90) sampleStrategy [] 0 (3 / 2)
        (1 / 1000) 30 (1 / 2)).position ≠ 0 →
      (0 < (handle_exits_for_bar sampleLong (rowAt 90) (rowAt 90) sampleStrategy [] 0
          (3 / 2) (1 / 1000) 30 (1 / 2)).position ↔ 0 < sampleLong.position)) :=
  c7_single_position_invariant sampleLong (rowAt 90) (rowAt 90) sampleStrategy [] 0
    (3 / 2) (1 / 1000) 30 (1 / 2) ("ranging") ("equity_pct") (1 / 2) (1 / 100) (3 / 100)
    (18 / 100) 100 0 (by norm_num)

end Theorems

end QuantLab
